import Mathlib

/-!
# Task drivers `exec` and `raw_exec`: handles, supervision, reattachment

A shallow embedding of `client/driver/exec.go` and `client/driver/raw_exec.go`.

* Go strings are Lean `String`s, processed through their character lists; each
  Go byte is the character with the same code.
* Go `int` is `Int`, restricted where it matters to the range of the platform
  word size `intSize` (`strconv.IntSize`).
* Go `error` values are `GoError`; a `nil` error is `none`.
* Channels are explicit states with Go's send / receive / close rules; the
  goroutine `run` is a step machine interleaved with a consumer of `WaitCh()`.
* Calls that leave the two files (operating system, executor, getter, library
  path functions) take their results from an explicit environment, and every
  such call is recorded in an effect trace.
-/

namespace Nomad

/-! ## Go values -/

/-- The two failure kinds of a `*strconv.NumError`: `ErrSyntax` and `ErrRange`. -/
inductive NumErrKind where
  | invalid
  | outOfRange
  deriving DecidableEq, Repr

/-- Go `error` values. `errorf` is `fmt.Errorf(format, args...)` with string or
integer arguments (already rendered); `errorfErr` is the same with a trailing
error argument; `numError` is `&strconv.NumError{Func, Num, Err}`; `foreign`
is an error produced by a collaborator outside the two files. -/
inductive GoError where
  | errorf (format : String) (args : List String)
  | errorfErr (format : String) (args : List String) (cause : GoError)
  | numError (fn : String) (num : String) (kind : NumErrKind)
  | foreign (msg : String)
  deriving DecidableEq, Repr

deriving instance DecidableEq for Except

/-! ## Library functions used for handle identifiers -/

namespace strconv

/-- The test `'0' <= d && d <= '9'` of `ParseUint`. -/
def isDigit (d : Char) : Bool := 48 ≤ d.toNat && d.toNat ≤ 57

/-- The constant `cutoff64(10)`: the first `n` with `n*10` above `1<<64 - 1`. -/
def cutoff64 : Nat := (2 ^ 64 - 1) / 10 + 1

/-- The digit loop of `strconv.ParseUint(s, 10, bitSize)` on `uint64` words:
a byte outside `'0'..'9'` is `ErrSyntax`; `n >= cutoff` (so `n*10` overflows),
or `n1 < n` after the wrapping addition, or `n1 > maxVal`, is `ErrRange`. -/
def parseUintLoop (maxVal : Nat) : List Char → Nat → Except NumErrKind Nat
  | [], n => .ok n
  | d :: ds, n =>
    if isDigit d then
      let v := d.toNat - 48
      if n ≥ cutoff64 then .error .outOfRange
      else
        let n10 := (n * 10) % 2 ^ 64
        let n1 := (n10 + v) % 2 ^ 64
        if n1 < n10 ∨ n1 > maxVal then .error .outOfRange
        else parseUintLoop maxVal ds n1
    else .error .invalid

/-- Go `strconv.ParseUint(s, 10, bitSize)` for `1 ≤ bitSize ≤ 64`: the empty
string is `ErrSyntax`; `maxVal` is `1<<bitSize - 1`. -/
def ParseUint (s : List Char) (bitSize : Nat) : Except NumErrKind Nat :=
  if s.length < 1 then .error .invalid
  else parseUintLoop (2 ^ bitSize - 1) s 0

/-- Go `strconv.ParseInt(s, 10, bitSize)` for `1 ≤ bitSize ≤ 64`: the empty
string is `ErrSyntax`; one leading `+` or `-` is picked off; the rest goes
through `ParseUint`; a syntax failure is returned as it is; with
`cutoff = 1 << (bitSize-1)`, a magnitude `>= cutoff` for a non-negative
number or `> cutoff` for a negative one is `ErrRange` (a range failure of
`ParseUint` leaves `un = 1<<64 - 1`, which is above `cutoff`). -/
def ParseInt (s : List Char) (bitSize : Nat) : Except NumErrKind Int :=
  match s with
  | [] => .error .invalid
  | c :: rest =>
    let neg : Bool := c = '-'
    let body : List Char := if c = '+' ∨ c = '-' then rest else c :: rest
    match ParseUint body bitSize with
    | .error .invalid => .error .invalid
    | .error .outOfRange => .error .outOfRange
    | .ok un =>
      let cutoff := 2 ^ (bitSize - 1)
      if ¬ neg ∧ un ≥ cutoff then .error .outOfRange
      else if neg ∧ un > cutoff then .error .outOfRange
      else if neg then .ok (-(un : Int)) else .ok (un : Int)

/-- Go `strconv.Atoi(s)`, which is `ParseInt(s, 10, 0)`: bit size `0` stands
for the platform word size `intSize`. The error is the `*NumError` naming
`ParseInt` and the whole input. -/
def Atoi (intSize : Nat) (s : String) : Except GoError Int :=
  match ParseInt s.data intSize with
  | .ok i => .ok i
  | .error k => .error (.numError "ParseInt" s k)

end strconv

namespace strings

/-- Go `strings.HasPrefix(s, p)`. -/
def HasPrefix (s p : String) : Bool := p.data.isPrefixOf s.data

/-- Go `strings.TrimPrefix(s, p)`: `s` without the leading `p` when it has it,
`s` unchanged otherwise. -/
def TrimPrefix (s p : String) : String :=
  if HasPrefix s p then ⟨s.data.drop p.data.length⟩ else s

end strings

namespace fmt

/-- The byte `'0' + d` of a decimal digit. -/
def digitByte (d : Nat) : Char := Char.ofNat (48 + d)

/-- The loop of `fmt`'s integer formatting in base 10, filling the buffer from
its end: while `u >= 10` it writes `'0' + u - (u/10)*10` and continues with
`u/10`; the last digit is `'0' + u`. The first argument bounds the number of
iterations (`u` itself is enough). -/
def fmtLoop : Nat → Nat → List Char → List Char
  | 0, u, acc => digitByte (u % 10) :: acc
  | fuel + 1, u, acc =>
    if u ≥ 10 then fmtLoop fuel (u / 10) (digitByte (u - (u / 10) * 10) :: acc)
    else digitByte u :: acc

/-- The verb `%d` applied to a Go `int`: a `-` for a negative number, then the
decimal digits of its magnitude. -/
def formatInt (i : Int) : String :=
  ⟨(if i < 0 then ['-'] else []) ++ fmtLoop i.natAbs i.natAbs []⟩

end fmt

/-! ## Channels -/

/-- A Go channel: its capacity, the buffered values (oldest first) and whether
it has been closed. -/
structure Chan (α : Type) where
  cap : Nat
  buf : List α
  closed : Bool
  deriving DecidableEq, Repr

/-- Go `make(chan T, cap)`. -/
def Chan.make {α : Type} (cap : Nat) : Chan α := { cap := cap, buf := [], closed := false }

/-- Outcome of a send or a close. -/
inductive ChanStep (α : Type) where
  | ok (c : Chan α)
  | blocks
  | panics
  deriving DecidableEq, Repr

/-- Go `c <- v`: a run-time panic on a closed channel; room in the buffer takes
the value; otherwise the sender blocks. -/
def Chan.send {α : Type} (c : Chan α) (v : α) : ChanStep α :=
  if c.closed then .panics
  else if c.buf.length < c.cap then .ok { c with buf := c.buf ++ [v] }
  else .blocks

/-- Go `close(c)`: a run-time panic on a closed channel. -/
def Chan.close {α : Type} (c : Chan α) : ChanStep α :=
  if c.closed then .panics else .ok { c with closed := true }

/-- Outcome of a receive `v, ok := <-c`. -/
inductive Recv (α : Type) where
  | value (v : α) (c : Chan α)
  | closedZero
  | blocks
  deriving DecidableEq, Repr

/-- Go `<-c`: the oldest buffered value if there is one; otherwise the zero
value at once when the channel is closed; otherwise the receiver blocks. -/
def Chan.recv {α : Type} (c : Chan α) : Recv α :=
  match c.buf with
  | v :: rest => .value v { c with buf := rest }
  | [] => if c.closed then .closedZero else .blocks

/-! ## Handles -/

/-- Go `os.Process`, of which the drivers use the field `Pid`. -/
structure Process where
  Pid : Int
  deriving DecidableEq, Repr

/-- The value an `executor.Executor` stands for in this model: the command it
was built from (or, after `OpenId`, the session identifier it reattached to). -/
structure Executor where
  id : String
  command : String
  args : List String
  env : List String
  deriving DecidableEq, Repr

/-- Go `rawExecHandle`. -/
structure rawExecHandle where
  proc : Process
  waitCh : Chan GoError
  doneCh : Chan Unit
  deriving DecidableEq, Repr

/-- Go `execHandle`. -/
structure execHandle where
  cmd : Executor
  waitCh : Chan GoError
  doneCh : Chan Unit
  deriving DecidableEq, Repr

/-- Calls that leave the driver, recorded in the order they are made. -/
inductive Effect where
  | getFile (dst src : String)
  | chmod (path : String)
  | logPrintf (format : String) (args : List String)
  | logErrorf (format : String) (err : GoError)
  | limit
  | configureTaskDir (taskName : String)
  | executorStart (command : String) (args : List String) (env : List String)
  | openFile (name : String)
  | processStart (command : String) (args : List String) (dir : String) (env : List String)
  | findProcess (pid : Int)
  | openId (id : String)
  | goRun
  deriving DecidableEq, Repr

/-- A driver operation: it may fail with an error, and the calls made so far
are kept in either case. -/
abbrev Op (α : Type) := ExceptT GoError (StateM (List Effect)) α

/-- Record one call. -/
def emit (e : Effect) : Op Unit := modify (fun t => t ++ [e])

/-- Run an operation from an empty trace: its result and the calls it made. -/
def Op.exec {α : Type} (m : Op α) : Except GoError α × List Effect := (ExceptT.run m).run []

/-- Go `rawExecHandle.ID`: `fmt.Sprintf("PID:%d", h.proc.Pid)`. -/
def rawExecHandle.ID (h : rawExecHandle) : String :=
  "PID:" ++ fmt.formatInt h.proc.Pid

/-- Go `execHandle.ID`: `id, _ := h.cmd.ID(); return id`. -/
def execHandle.ID (h : execHandle) : String := h.cmd.id

/-- Go `rawExecHandle.WaitCh`. -/
def rawExecHandle.WaitCh (h : rawExecHandle) : Chan GoError := h.waitCh

/-- Go `execHandle.WaitCh`. -/
def execHandle.WaitCh (h : execHandle) : Chan GoError := h.waitCh

/-- What `RawExecDriver.Open` reads from its surroundings: the word size of
`int` and the operating system's `os.FindProcess`. -/
structure OpenEnv where
  intSize : Nat
  FindProcess : Int → Option Process × Option GoError

/-- The first two statements of `RawExecDriver.Open`: the handle is split with
`strings.TrimPrefix(handleID, "PID:")` and the rest parsed with `strconv.Atoi`. -/
def RawExecDriver.decodeHandle (intSize : Nat) (handleID : String) : Except GoError Int :=
  strconv.Atoi intSize (strings.TrimPrefix handleID "PID:")

/-- Go `RawExecDriver.Open`. -/
def RawExecDriver.Open (env : OpenEnv) (handleID : String) : Op rawExecHandle := do
  -- Split the handle
  let pid ← match RawExecDriver.decodeHandle env.intSize handleID with
    | .ok pid => pure pid
    | .error err => throw (.errorfErr "failed to parse handle '%s': %v" [handleID] err)
  -- Find the process
  emit (.findProcess pid)
  let proc ← match env.FindProcess pid with
    | (some proc, none) => pure proc
    | (_, some err) => throw (.errorfErr "failed to find PID %d: %v" [fmt.formatInt pid] err)
    | (none, none) => throw (.errorf "failed to find PID %d: %v" [fmt.formatInt pid, "<nil>"])
  -- Return a driver handle
  let h : rawExecHandle := { proc := proc, doneCh := Chan.make 0, waitCh := Chan.make 1 }
  emit .goRun
  return h

/-- What `ExecDriver.Open` reads from its surroundings: `executor.OpenId`. -/
structure ExecOpenEnv where
  OpenId : String → Except GoError Executor

/-- Go `ExecDriver.Open`. -/
def ExecDriver.Open (env : ExecOpenEnv) (handleID : String) : Op execHandle := do
  -- Find the process
  emit (.openId handleID)
  let cmd ← match env.OpenId handleID with
    | .ok cmd => pure cmd
    | .error err => throw (.errorfErr "failed to open ID %v: %v" [handleID] err)
  -- Return a driver handle
  let h : execHandle := { cmd := cmd, doneCh := Chan.make 0, waitCh := Chan.make 1 }
  emit .goRun
  return h

/-- A POSIX host with 64-bit `int`: `os.FindProcess` always succeeds there and
returns a process value carrying the requested pid. -/
def unixEnv : OpenEnv := { intSize := 64, FindProcess := fun pid => (some ⟨pid⟩, none) }

/-! ## The watcher goroutine `run` -/

/-- Result of `h.proc.Wait()`: an error, or a `*os.ProcessState` of which the
watcher uses `Success()`, which is `ExitStatus() == 0`. -/
inductive WaitResult where
  | failed (err : GoError)
  | exited (status : Int)
  deriving DecidableEq, Repr

/-- Go `(*os.ProcessState).Success`. -/
def WaitResult.Success : WaitResult → Bool
  | .failed _ => false
  | .exited status => status = 0

/-- The branch of `rawExecHandle.run` after `close(h.doneCh)`: the value sent on
`waitCh`, if any. `if err != nil { h.waitCh <- err } else if !ps.Success()
{ h.waitCh <- fmt.Errorf("task exited with error") }`. -/
def rawExecHandle.published (r : WaitResult) : Option GoError :=
  match r with
  | .failed err => some err
  | .exited status =>
    if ¬ (WaitResult.exited status).Success then some (.errorf "task exited with error" [])
    else none

/-- The branch of `execHandle.run` after `close(h.doneCh)`: the value sent on
`waitCh`, if any. `if err != nil { h.waitCh <- err }`, with `err` the result of
`h.cmd.Wait()`. -/
def execHandle.published (err : Option GoError) : Option GoError := err

/-- How the process or session watched by a handle ends: the wait itself
fails, or the process exits with a status. -/
inductive Outcome where
  | waitFailed (err : GoError)
  | exit (status : Int)
  deriving DecidableEq, Repr

/-- Modelled from the spec: `executor.Executor.Wait` (package `client/executor`,
not among the sources) as the constrained variant's watcher needs it. The
completion signal is "closed with no error on clean exit, fired with an error
on wait failure, or fired with an `ExitFailure` error when the process
terminated with a non-zero status", and `execHandle.run` publishes exactly the
error `Wait` returns, so `Wait` returns no error on status 0, the wait error on
a wait failure, and an exit-failure error on a non-zero status. -/
def Executor.Wait (exitFailure : Int → GoError) : Outcome → Option GoError
  | .waitFailed err => some err
  | .exit status => if status = 0 then none else some (exitFailure status)

/-- The steps the watcher takes, in program order. -/
inductive WEvent where
  | waitReturned
  | closeDone
  | sendWait (e : GoError)
  | closeWait
  deriving DecidableEq, Repr

/-- One result `err, ok := <-h.WaitCh()` seen by the consumer. -/
structure Read where
  err : Option GoError
  ok : Bool
  deriving DecidableEq, Repr

/-- The state shared by the goroutine `run` of one handle and the consumer of
its `WaitCh()`: the watcher's position (0 before the wait returns, 1 before
`close(doneCh)`, 2 before the conditional send, 3 before `close(waitCh)`,
4 returned), the two channels, what the watcher did, what the consumer read,
and whether the watcher hit a run-time panic or found a send that would block. -/
structure Watch where
  pc : Nat
  doneCh : Chan Unit
  waitCh : Chan GoError
  trace : List WEvent
  reads : List Read
  panicked : Bool
  sendBlocked : Bool
  deriving DecidableEq, Repr

/-- The state right after `Start` or `Open` built the handle: `doneCh:
make(chan struct{})`, `waitCh: make(chan error, 1)`, and `go h.run()`. -/
def Watch.init : Watch :=
  { pc := 0, doneCh := Chan.make 0, waitCh := Chan.make 1, trace := [], reads := [],
    panicked := false, sendBlocked := false }

/-- One step of `run` (both variants have this body; `pub` is the error the
conditional after `close(h.doneCh)` sends, `none` when it sends nothing):
`err := Wait(); close(h.doneCh); if ... { h.waitCh <- e }; close(h.waitCh)`. -/
def Watch.runStep (pub : Option GoError) (s : Watch) : Watch :=
  match s.pc with
  | 0 => { s with pc := 1, trace := s.trace ++ [.waitReturned] }
  | 1 =>
    match s.doneCh.close with
    | .ok c => { s with pc := 2, doneCh := c, trace := s.trace ++ [.closeDone] }
    | .blocks => s
    | .panics => { s with panicked := true }
  | 2 =>
    match pub with
    | none => { s with pc := 3 }
    | some e =>
      match s.waitCh.send e with
      | .ok c => { s with pc := 3, waitCh := c, trace := s.trace ++ [.sendWait e] }
      | .blocks => { s with sendBlocked := true }
      | .panics => { s with panicked := true }
  | 3 =>
    match s.waitCh.close with
    | .ok c => { s with pc := 4, waitCh := c, trace := s.trace ++ [.closeWait] }
    | .blocks => s
    | .panics => { s with panicked := true }
  | _ => s

/-- One receive by the consumer on `WaitCh()`; a receive that would block
leaves the state as it is. -/
def Watch.readStep (s : Watch) : Watch :=
  match s.waitCh.recv with
  | .value v c => { s with waitCh := c, reads := s.reads ++ [{ err := some v, ok := true }] }
  | .closedZero => { s with reads := s.reads ++ [{ err := none, ok := false }] }
  | .blocks => s

/-- Who moves next. -/
inductive Actor where
  | watcher
  | consumer
  deriving DecidableEq, Repr

/-- One scheduled step. -/
def Watch.step (pub : Option GoError) (s : Watch) : Actor → Watch
  | .watcher => s.runStep pub
  | .consumer => s.readStep

/-- The state reached from `s` under a schedule. -/
def Watch.runFrom (pub : Option GoError) (s : Watch) (sched : List Actor) : Watch :=
  sched.foldl (Watch.step pub) s

/-- The state reached from a fresh handle under a schedule. -/
def Watch.run (pub : Option GoError) (sched : List Actor) : Watch :=
  Watch.runFrom pub Watch.init sched

/-- `rawExecHandle.run` interleaved with a consumer, for a given result of
`h.proc.Wait()`. -/
def rawExecHandle.run (r : WaitResult) (sched : List Actor) : Watch :=
  Watch.run (rawExecHandle.published r) sched

/-- `execHandle.run` interleaved with a consumer, for a given result of
`h.cmd.Wait()`. -/
def execHandle.run (err : Option GoError) (sched : List Actor) : Watch :=
  Watch.run (execHandle.published err) sched

/-- What the watcher does when it runs to its end: one wait, `close(doneCh)`,
the send if there is one, `close(waitCh)`. -/
def Watch.fullTrace (pub : Option GoError) : List WEvent :=
  [.waitReturned, .closeDone] ++ (match pub with | some e => [.sendWait e] | none => [])
    ++ [.closeWait]

/-- Number of watcher steps in a schedule. -/
def watcherSteps (sched : List Actor) : Nat := sched.count .watcher

/-- An event on the completion channel `waitCh`. -/
def WEvent.onWaitCh : WEvent → Bool
  | .sendWait _ => true
  | .closeWait => true
  | _ => false

/-- A send on the completion channel. -/
def WEvent.isSend : WEvent → Bool
  | .sendWait _ => true
  | _ => false

/-! ## `Kill` -/

/-- The steps of `Kill`, in program order: the graceful request
(`h.proc.Signal(os.Interrupt)` or `h.cmd.Shutdown()`), the `select` case taken
(`<-h.doneCh` or `<-time.After(d)`, `d` in nanoseconds), the forced stop
(`h.proc.Kill()` or `h.cmd.ForceStop()`). -/
inductive KEvent where
  | signalInterrupt
  | shutdown
  | recvDone
  | timerFired (d : Nat)
  | procKill
  | forceStop
  deriving DecidableEq, Repr

/-- Go `5 * time.Second`, in nanoseconds. -/
def gracePeriod : Nat := 5 * 1000000000

/-- What `Kill` meets outside the handle: the host's `runtime.GOOS`; the result
of the graceful request; whether the watcher closes `doneCh` before the timer
fires when it has not closed it already; the result of the forced stop. -/
structure KillEnv where
  goos : String
  graceful : Option GoError
  doneWithinGrace : Bool
  force : Option GoError
  deriving DecidableEq, Repr

/-- The `select` of `Kill`: the case `<-h.doneCh` is taken when `doneCh` is
closed already or gets closed before the timer fires, the case
`<-time.After(5 * time.Second)` otherwise. -/
def doneFirst (doneCh : Chan Unit) (env : KillEnv) : Bool :=
  doneCh.closed || env.doneWithinGrace

/-- What a call of `Kill` returned and did. -/
structure KillResult where
  ret : Option GoError
  trace : List KEvent
  deriving DecidableEq, Repr

/-- Go `rawExecHandle.Kill`. -/
def rawExecHandle.Kill (h : rawExecHandle) (env : KillEnv) : KillResult :=
  if env.goos = "windows" then
    { ret := env.force, trace := [.procKill] }
  else
    -- h.proc.Signal(os.Interrupt): the result is dropped
    if doneFirst h.doneCh env then
      { ret := none, trace := [.signalInterrupt, .recvDone] }
    else
      { ret := env.force, trace := [.signalInterrupt, .timerFired gracePeriod, .procKill] }

/-- Go `execHandle.Kill`. -/
def execHandle.Kill (h : execHandle) (env : KillEnv) : KillResult :=
  -- h.cmd.Shutdown(): the result is dropped
  if doneFirst h.doneCh env then
    { ret := none, trace := [.shutdown, .recvDone] }
  else
    { ret := env.force, trace := [.shutdown, .timerFired gracePeriod, .forceStop] }

/-- Go `rawExecHandle.Update` and `execHandle.Update`: no effect, no error. -/
def Update : Option GoError := none

/-- A forced stop. -/
def KEvent.isForce : KEvent → Bool
  | .procKill => true
  | .forceStop => true
  | _ => false

/-- A graceful request. -/
def KEvent.isGraceful : KEvent → Bool
  | .signalInterrupt => true
  | .shutdown => true
  | _ => false

/-- The watched process as the operating system has it. -/
inductive ProcState where
  | running
  | exited (status : Int)
  deriving DecidableEq, Repr

/-- Whether the process has exited. -/
def ProcState.hasExited : ProcState → Bool
  | .running => false
  | .exited _ => true

/-! ## `Fingerprint` -/

/-- Go `strconv.ParseBool`. -/
def strconv.ParseBool (str : String) : Except GoError Bool :=
  if str = "1" ∨ str = "t" ∨ str = "T" ∨ str = "TRUE" ∨ str = "true" ∨ str = "True" then .ok true
  else if str = "0" ∨ str = "f" ∨ str = "F" ∨ str = "FALSE" ∨ str = "false" ∨ str = "False" then
    .ok false
  else .error (.numError "ParseBool" str .invalid)

/-- Go `map[string]string`, read with the two-value index expression. -/
abbrev StrMap := String → Option String

/-- Go `m[k] = v`. -/
def StrMap.set (m : StrMap) (k v : String) : StrMap := fun x => if x = k then some v else m x

/-- The empty map. -/
def StrMap.empty : StrMap := fun _ => none

/-- Go `config.Config`, of which the driver reads `Options`. -/
structure Config where
  Options : StrMap

/-- Modelled from the spec: `Config.ReadDefault` (package `client/config`, not
among the sources). The option is "read from client configuration (default:
disabled)", a "boolean string, default `false`": the value of the key in
`Options` when present, the given default otherwise. -/
def Config.ReadDefault (c : Config) (id defaultValue : String) : String :=
  match c.Options id with
  | some val => val
  | none => defaultValue

/-- Go `structs.Node`, of which the drivers write `Attributes` (a non-nil map). -/
structure Node where
  Attributes : StrMap

/-- The constant `rawExecConfigOption`. -/
def rawExecConfigOption : String := "driver.raw_exec.enable"

/-- What `Fingerprint` returned, the node after the call, and what it logged. -/
structure FingerprintResult where
  enabled : Bool
  err : Option GoError
  node : Node
  log : List Effect

/-- Go `RawExecDriver.Fingerprint`. -/
def RawExecDriver.Fingerprint (cfg : Config) (node : Node) : FingerprintResult :=
  -- Check that the user has explicitly enabled this executor.
  match strconv.ParseBool (cfg.ReadDefault rawExecConfigOption "false") with
  | .error err =>
    { enabled := false,
      err := some (.errorfErr "Failed to parse %v option: %v" [rawExecConfigOption] err),
      node := node, log := [] }
  | .ok enabled =>
    if enabled then
      { enabled := true, err := none,
        node := { node with Attributes := node.Attributes.set "driver.raw_exec" "1" },
        log := [.logPrintf "[WARN] driver.raw_exec: raw exec is enabled. Only enable if needed" []] }
    else
      { enabled := false, err := none, node := node, log := [] }

/-- Go `ExecDriver.Fingerprint`, given `runtime.GOOS` and `syscall.Geteuid()`. -/
def ExecDriver.Fingerprint (goos : String) (euid : Int) (node : Node) : FingerprintResult :=
  -- Only enable if we are root when running on non-windows systems.
  if goos ≠ "windows" ∧ euid ≠ 0 then
    { enabled := false, err := none, node := node,
      log := [.logPrintf "[DEBUG] driver.exec: must run as root user, disabling" []] }
  else
    { enabled := true, err := none,
      node := { node with Attributes := node.Attributes.set "driver.exec" "1" }, log := [] }

/-! ## `Start` -/

/-- Go's two-value map read `v, ok := m[k]`: the zero string and `false` for an
absent key. -/
def StrMap.get2 (m : StrMap) (k : String) : String × Bool :=
  match m k with
  | some v => (v, true)
  | none => ("", false)

/-- Go `ExecContext`, of which the drivers read `AllocDir.TaskDirs`. -/
structure ExecContext where
  TaskDirs : StrMap

/-- Go `structs.Task`, of which the drivers read `Config` (and pass `Resources`
on to the executor). -/
structure Task where
  Config : StrMap

/-- Go `DriverContext`, of which the drivers read `taskName`. -/
structure DriverContext where
  taskName : String

/-- What `Start` meets outside the driver: `runtime.GOOS`, the constant
`allocdir.TaskLocal`, `filepath.Join`, `path.Base`, `getter.GetFile(dst, src)`,
the run of `chmod +x path`, the list of `TaskEnvironmentVariables(ctx, task)`,
`args.ParseAndReplace(argRaw, envVars.Map())`, `cmd.Limit(task.Resources)`,
`cmd.ConfigureTaskDir(taskName, ctx.AllocDir)`, the executor's `cmd.Start()`
(giving the session), `os.OpenFile(name, ...)`, and `exec.Cmd.Start()` (giving
the process). -/
structure StartEnv where
  goos : String
  TaskLocal : String
  Join : String → String → String
  Base : String → String
  GetFile : String → String → Option GoError
  Chmod : String → Option GoError
  EnvList : List String
  ParseAndReplace : String → Except GoError (List String)
  Limit : Option GoError
  ConfigureTaskDir : String → Option GoError
  ExecutorStart : String → List String → Except GoError String
  OpenFile : String → Option GoError
  ProcessStart : String → List String → Except GoError Process

/-- The constant `unixNull`. -/
def unixNull : String := "/dev/null"

/-- The constant `windowsNull`. -/
def windowsNull : String := "nul"

/-- Go `ExecDriver.Start`. -/
def ExecDriver.Start (d : DriverContext) (env : StartEnv) (ctx : ExecContext) (task : Task) :
    Op execHandle := do
  -- Get the command to be ran, or if omitted, download an artifact
  let (command0, ok) := task.Config.get2 "command"
  let mut command := command0
  if !ok || command == "" then
    let (source, sok) := task.Config.get2 "artifact_source"
    if !sok || source == "" then
      throw (.errorf "missing command or source for exec driver" [])
    let (taskDir, ok) := ctx.TaskDirs.get2 d.taskName
    if !ok then
      throw (.errorf "[Err] driver.Exec: Could not find task directory for task: %v" [d.taskName])
    let destDir := env.Join taskDir env.TaskLocal
    -- Create a location to download the artifact.
    let artifactName := env.Base source
    command := env.Join destDir artifactName
    emit (.getFile command source)
    match env.GetFile command source with
    | some err =>
      throw (.errorfErr "[Err] driver.Exec: Error downloading source for Exec driver: %s" [] err)
    | none => pure ()
    emit (.chmod command)
    match env.Chmod command with
    | some err => emit (.logErrorf "[Err] driver.Exec: Error making artifact executable: %s" err)
    | none => pure ()
    -- re-assign the command to be the local execution path
    command := env.Join env.TaskLocal artifactName
  -- Get the environment variables.
  let envVars := env.EnvList
  -- Look for arguments
  let mut args : List String := []
  let (argRaw, ok) := task.Config.get2 "args"
  if ok then
    args := args ++ [argRaw]
  -- Setup the command
  emit .limit
  match env.Limit with
  | some err => throw (.errorfErr "failed to constrain resources: %s" [] err)
  | none => pure ()
  emit (.configureTaskDir d.taskName)
  match env.ConfigureTaskDir d.taskName with
  | some err => throw (.errorfErr "failed to configure task directory: %v" [] err)
  | none => pure ()
  emit (.executorStart command args envVars)
  let id ← match env.ExecutorStart command args with
    | .error err => throw (.errorfErr "failed to start command: %v" [] err)
    | .ok id => pure id
  -- Return a driver handle
  let h : execHandle :=
    { cmd := { id := id, command := command, args := args, env := envVars },
      doneCh := Chan.make 0, waitCh := Chan.make 1 }
  emit .goRun
  return h

/-- Go `RawExecDriver.Start`. -/
def RawExecDriver.Start (d : DriverContext) (env : StartEnv) (ctx : ExecContext) (task : Task) :
    Op rawExecHandle := do
  -- Get the tasks local directory.
  let taskName := d.taskName
  let (taskDir, ok) := ctx.TaskDirs.get2 taskName
  if !ok then
    throw (.errorf "Could not find task directory for task: %v" [d.taskName])
  let taskLocal := env.Join taskDir env.TaskLocal
  -- Get the command
  let (command0, ok) := task.Config.get2 "command"
  let mut command := command0
  if !ok || command == "" then
    let (source, sok) := task.Config.get2 "artifact_source"
    if !sok || source == "" then
      throw (.errorf "missing command or source for exec driver" [])
    let destDir := env.Join taskDir env.TaskLocal
    -- Create a location to download the artifact.
    let artifactName := env.Base source
    command := env.Join destDir artifactName
    emit (.getFile command source)
    match env.GetFile command source with
    | some err =>
      throw (.errorfErr "[Err] driver.Exec: Error downloading source for Exec driver: %s" [] err)
    | none => pure ()
    emit (.chmod command)
    match env.Chmod command with
    | some err => emit (.logErrorf "[Err] driver.Exec: Error making artifact executable: %s" err)
    | none => pure ()
    -- re-assign the command to be the local execution path
    command := env.Join env.TaskLocal artifactName
  -- Get the environment variables.
  let envVars := env.EnvList
  -- Look for arguments
  let mut cmdArgs : List String := []
  let (argRaw, ok) := task.Config.get2 "args"
  if ok then
    match env.ParseAndReplace argRaw with
    | .error err => throw err
    | .ok parsed => cmdArgs := cmdArgs ++ parsed
  -- Capture the stdout/stderr and redirect stdin to /dev/null
  let stdoutFilename := env.Join taskLocal (taskName ++ ".stdout")
  let stderrFilename := env.Join taskLocal (taskName ++ ".stderr")
  let stdinFilename := if env.goos = "windows" then windowsNull else unixNull
  emit (.openFile stdoutFilename)
  match env.OpenFile stdoutFilename with
  | some err => throw (.errorfErr "Error opening file to redirect stdout: %v" [] err)
  | none => pure ()
  emit (.openFile stderrFilename)
  match env.OpenFile stderrFilename with
  | some err => throw (.errorfErr "Error opening file to redirect stderr: %v" [] err)
  | none => pure ()
  emit (.openFile stdinFilename)
  match env.OpenFile stdinFilename with
  | some err => throw (.errorfErr "Error opening file to redirect stdin: %v" [] err)
  | none => pure ()
  emit (.processStart command cmdArgs taskDir envVars)
  let proc ← match env.ProcessStart command cmdArgs with
    | .error err => throw (.errorfErr "failed to start command: %v" [] err)
    | .ok proc => pure proc
  -- Return a driver handle
  let h : rawExecHandle := { proc := proc, doneCh := Chan.make 0, waitCh := Chan.make 1 }
  emit .goRun
  return h

/-- A task directory layout with nothing in it and collaborators that all
succeed; used to run `Start` on concrete inputs. -/
def plainEnv : StartEnv :=
  { goos := "linux", TaskLocal := "local",
    Join := fun a b => a ++ "/" ++ b, Base := fun s => s,
    GetFile := fun _ _ => none, Chmod := fun _ => none, EnvList := [],
    ParseAndReplace := fun s => .ok [s], Limit := none, ConfigureTaskDir := fun _ => none,
    ExecutorStart := fun _ _ => .ok "session", OpenFile := fun _ => none,
    ProcessStart := fun _ _ => .ok ⟨1⟩ }

/-! ## Reference notions the statements are compared with -/

/-- The value of a string of decimal digits, as an unbounded natural number. -/
def decimalValue (ds : List Char) : Nat :=
  ds.foldl (fun n d => n * 10 + (d.toNat - 48)) 0

/-- A decimal integer literal that fits a signed word of `w` bits: an optional
`+` or `-`, then at least one digit `0`..`9` and nothing else, denoting a number
in `[-2^(w-1), 2^(w-1) - 1]`. -/
def isIntLiteral (w : Nat) (s : List Char) : Bool :=
  match s with
  | [] => false
  | c :: rest =>
    let ds := if c = '+' ∨ c = '-' then rest else c :: rest
    !ds.isEmpty && ds.all strconv.isDigit &&
      (if c = '-' then decide (decimalValue ds ≤ 2 ^ (w - 1))
       else decide (decimalValue ds < 2 ^ (w - 1)))

/-- The number a decimal integer literal denotes. -/
def intLiteralValue (s : List Char) : Int :=
  match s with
  | [] => 0
  | c :: rest =>
    if c = '-' then -(decimalValue rest : Int)
    else if c = '+' then (decimalValue rest : Int)
    else (decimalValue (c :: rest) : Int)

/-- The identifier form `"PID:<integer>"`: the literal `PID:` followed by a
decimal integer literal. -/
def isPidHandle (w : Nat) (handleID : String) : Bool :=
  strings.HasPrefix handleID "PID:" && isIntLiteral w (handleID.data.drop 4)

/-- A bare decimal integer literal, with no `PID:` in front. -/
def isBareInteger (w : Nat) (handleID : String) : Bool :=
  isIntLiteral w handleID.data

/-- What the watcher has done when it stands at position `pc`. -/
def Watch.traceAt (pub : Option GoError) (pc : Nat) : List WEvent :=
  match pc with
  | 0 => []
  | 1 => [.waitReturned]
  | 2 => [.waitReturned, .closeDone]
  | 3 => [.waitReturned, .closeDone] ++ (match pub with | some e => [.sendWait e] | none => [])
  | _ => Watch.fullTrace pub

/-- The first result a consumer reads from the completion channel: the
published error with `ok = true`, or the closed channel's zero result (`nil`,
`ok = false`) when nothing was published. -/
def Watch.firstRead (pub : Option GoError) : Read :=
  match pub with
  | some e => { err := some e, ok := true }
  | none => { err := none, ok := false }

/-- What a consumer has read once it has drained the channel and then read `k`
more times: the published error, if any, once; then the closed channel's zero
result `k` times. -/
def Watch.readsOf (pub : Option GoError) (k : Nat) : List Read :=
  (match pub with | some e => [{ err := some e, ok := true }] | none => []) ++
    List.replicate k { err := none, ok := false }

/-- The states a handle and its consumer can be in. -/
structure Watch.Inv (pub : Option GoError) (s : Watch) : Prop where
  pc_le : s.pc ≤ 4
  not_panicked : s.panicked = false
  not_blocked : s.sendBlocked = false
  trace_eq : s.trace = Watch.traceAt pub s.pc
  done_eq : s.doneCh = { cap := 0, buf := [], closed := decide (2 ≤ s.pc) }
  wait_cap : s.waitCh.cap = 1
  wait_closed : s.waitCh.closed = decide (s.pc = 4)
  early : s.pc ≤ 2 → s.waitCh.buf = [] ∧ s.reads = []
  late : 3 ≤ s.pc →
    (s.waitCh.buf = pub.toList ∧ s.reads = []) ∨
    (s.waitCh.buf = [] ∧ ∃ k, s.reads = Watch.readsOf pub k ∧ (s.pc < 4 → k = 0))

/-! ## Decimal rendering and parsing -/

theorem digitByte_toNat (d : Nat) (hd : d < 10) : (fmt.digitByte d).toNat = 48 + d := by
  interval_cases d <;> rfl

theorem digitByte_isDigit (d : Nat) (hd : d < 10) : strconv.isDigit (fmt.digitByte d) = true := by
  interval_cases d <;> rfl

theorem parseUintLoop_append (M : Nat) (xs ys : List Char) (n : Nat) :
    strconv.parseUintLoop M (xs ++ ys) n =
      (match strconv.parseUintLoop M xs n with
       | .ok m => strconv.parseUintLoop M ys m
       | .error e => .error e) := by
  induction xs generalizing n with
  | nil => simp [strconv.parseUintLoop]
  | cons d ds ih =>
    simp only [List.cons_append, strconv.parseUintLoop]
    split
    · split
      · rfl
      · split
        · rfl
        · exact ih _
    · rfl

theorem parseUintLoop_digit (M m d : Nat) (hd : d < 10) (hM : m * 10 + d ≤ M)
    (h64 : M < 2 ^ 64) :
    strconv.parseUintLoop M [fmt.digitByte d] m = .ok (m * 10 + d) := by
  have h1 : ¬ (m ≥ strconv.cutoff64) := by
    simp only [strconv.cutoff64]; norm_num; norm_num at h64; omega
  have h2 : (m * 10) % 2 ^ 64 = m * 10 := by
    apply Nat.mod_eq_of_lt; omega
  have h3 : (m * 10 + d) % 2 ^ 64 = m * 10 + d := by
    apply Nat.mod_eq_of_lt; omega
  simp only [strconv.parseUintLoop, digitByte_isDigit d hd, digitByte_toNat d hd, if_true]
  rw [if_neg h1]
  simp only [Nat.add_sub_cancel_left, h2, h3]
  rw [if_neg (by omega)]

/-- The formatting loop puts a nonempty string of digits in front of the buffer,
and that string parses back to the number under every bound the number meets. -/
theorem fmtLoop_spec (fuel : Nat) : ∀ (u : Nat) (acc : List Char), u ≤ fuel →
    ∃ ds : List Char, fmt.fmtLoop fuel u acc = ds ++ acc ∧ ds ≠ [] ∧
      (∀ c ∈ ds, strconv.isDigit c = true) ∧
      (∀ M, u ≤ M → M < 2 ^ 64 → strconv.parseUintLoop M ds 0 = .ok u) := by
  induction fuel with
  | zero =>
    intro u acc hu
    have hu0 : u = 0 := by omega
    subst hu0
    refine ⟨[fmt.digitByte 0], rfl, by simp, ?_, ?_⟩
    · intro c hc
      simp only [List.mem_singleton] at hc
      subst hc; rfl
    · intro M hM h64
      simpa using parseUintLoop_digit M 0 0 (by omega) (by omega) h64
  | succ fuel ih =>
    intro u acc hu
    by_cases h10 : u ≥ 10
    · obtain ⟨ds, hds, -, hdig, hparse⟩ :=
        ih (u / 10) (fmt.digitByte (u - (u / 10) * 10) :: acc) (by omega)
      have hlt : u - (u / 10) * 10 < 10 := by omega
      refine ⟨ds ++ [fmt.digitByte (u - (u / 10) * 10)], ?_, by simp, ?_, ?_⟩
      · simp only [fmt.fmtLoop, if_pos h10, hds, List.append_assoc, List.singleton_append]
      · intro c hc
        rcases List.mem_append.mp hc with h | h
        · exact hdig c h
        · simp only [List.mem_singleton] at h
          subst h; exact digitByte_isDigit _ hlt
      · intro M hM h64
        rw [parseUintLoop_append, hparse M (by omega) h64]
        have := parseUintLoop_digit M (u / 10) (u - (u / 10) * 10) hlt (by omega) h64
        simp only [this]
        congr 1; omega
    · have hlt : u < 10 := by omega
      refine ⟨[fmt.digitByte u], ?_, by simp, ?_, ?_⟩
      · simp only [fmt.fmtLoop, if_neg h10, List.singleton_append]
      · intro c hc
        simp only [List.mem_singleton] at hc
        subst hc; exact digitByte_isDigit _ hlt
      · intro M hM h64
        simpa using parseUintLoop_digit M 0 u hlt (by omega) h64

/-- The formatting loop writes the decimal digits of the number, most
significant first. -/
theorem fmtLoop_digits (fuel : Nat) : ∀ (u : Nat) (acc : List Char), 0 < u → u ≤ fuel →
    fmt.fmtLoop fuel u acc = ((Nat.digits 10 u).reverse.map fmt.digitByte) ++ acc := by
  induction fuel with
  | zero => intro u acc h0 hu; omega
  | succ fuel ih =>
    intro u acc h0 hu
    by_cases h10 : u ≥ 10
    · have hd : Nat.digits 10 u = u % 10 :: Nat.digits 10 (u / 10) :=
        Nat.digits_def' (by norm_num) h0
      have he : u - u / 10 * 10 = u % 10 := by omega
      simp only [fmt.fmtLoop, if_pos h10]
      rw [ih (u / 10) _ (by omega) (by omega), hd, he]
      simp
    · have hd : Nat.digits 10 u = [u] := Nat.digits_of_lt 10 u (by omega) (by omega)
      simp only [fmt.fmtLoop, if_neg h10, hd]
      simp

theorem isDigit_ne_sign (c : Char) (h : strconv.isDigit c = true) : ¬ (c = '+' ∨ c = '-') := by
  rintro (rfl | rfl) <;> simp [strconv.isDigit] at h

theorem two_pow_pred_lt (w : Nat) (h1 : 1 ≤ w) (h64 : w ≤ 64) :
    2 ^ (w - 1) * 2 = 2 ^ w ∧ 2 ^ w ≤ 2 ^ 64 := by
  constructor
  · rw [← pow_succ]; congr 1; omega
  · exact Nat.pow_le_pow_right (by norm_num) h64

theorem parseInt_minus (ds : List Char) (w u : Nat) (h : strconv.ParseUint ds w = .ok u)
    (hu : u ≤ 2 ^ (w - 1)) : strconv.ParseInt ('-' :: ds) w = .ok (-(u : Int)) := by
  have h2 : ¬ (u > 2 ^ (w - 1)) := by omega
  simp [strconv.ParseInt, h, h2]

theorem parseInt_plain (c : Char) (cs : List Char) (w u : Nat) (hc : ¬ (c = '+' ∨ c = '-'))
    (h : strconv.ParseUint (c :: cs) w = .ok u) (hu : u < 2 ^ (w - 1)) :
    strconv.ParseInt (c :: cs) w = .ok (u : Int) := by
  have hm : ¬ (c = '-') := fun e => hc (Or.inr e)
  have h2 : ¬ (u ≥ 2 ^ (w - 1)) := by omega
  simp only [strconv.ParseInt, if_neg hc, h]
  simp [hm, h2]

/-- Parsing the decimal rendering of an `int` gives the `int` back. -/
theorem parseInt_formatInt (w : Nat) (h1 : 1 ≤ w) (h64 : w ≤ 64) (i : Int)
    (hlo : -(2 : Int) ^ (w - 1) ≤ i) (hhi : i < (2 : Int) ^ (w - 1)) :
    strconv.ParseInt (fmt.formatInt i).data w = .ok i := by
  obtain ⟨ds, hds, hne, hdig, hparse⟩ := fmtLoop_spec i.natAbs i.natAbs [] le_rfl
  obtain ⟨hpow, hle⟩ := two_pow_pred_lt w h1 h64
  have hpos : 0 < 2 ^ (w - 1) := Nat.pow_pos (by norm_num)
  rw [List.append_nil] at hds
  obtain ⟨c, cs, hcs⟩ := List.exists_cons_of_ne_nil hne
  have hc : ¬ (c = '+' ∨ c = '-') := isDigit_ne_sign c (hdig c (by simp [hcs]))
  have hcast : ((2 : Int) ^ (w - 1)) = ((2 ^ (w - 1) : Nat) : Int) := by push_cast; rfl
  rw [hcast] at hlo hhi
  have hlen : ¬ (ds.length < 1) := by rw [hcs]; simp
  have hp := hparse (2 ^ w - 1) (by omega) (by omega)
  have hpu : strconv.ParseUint ds w = .ok i.natAbs := by
    simp only [strconv.ParseUint, if_neg hlen, hp]
  by_cases hneg : i < 0
  · have habs : i.natAbs ≤ 2 ^ (w - 1) := by omega
    have hdata : (fmt.formatInt i).data = '-' :: ds := by
      simp only [fmt.formatInt, if_pos hneg, hds, List.singleton_append]
    rw [hdata, parseInt_minus ds w _ hpu habs]
    congr 1; omega
  · have habs : i.natAbs < 2 ^ (w - 1) := by omega
    have hdata : (fmt.formatInt i).data = c :: cs := by
      simp only [fmt.formatInt, if_neg hneg, hds, List.nil_append, hcs]
    rw [hcs] at hpu
    rw [hdata, parseInt_plain c cs w _ hc hpu habs]
    congr 1; omega

theorem foldl_decimal_ge (ds : List Char) : ∀ n : Nat,
    n ≤ ds.foldl (fun n d => n * 10 + (d.toNat - 48)) n := by
  induction ds with
  | nil => intro n; simp
  | cons d ds ih =>
    intro n
    simp only [List.foldl_cons]
    exact le_trans (by omega) (ih _)

/-- The digit loop succeeds exactly on strings of digits whose value, continued
from the accumulator, stays within the bound; and it returns that value. -/
theorem parseUintLoop_ok_iff (M : Nat) (h64 : M < 2 ^ 64) (ds : List Char) : ∀ (n v : Nat),
    strconv.parseUintLoop M ds n = .ok v ↔
      (ds.all strconv.isDigit = true ∧
        ds.foldl (fun n d => n * 10 + (d.toNat - 48)) n = v ∧ (ds = [] ∨ v ≤ M)) := by
  induction ds with
  | nil =>
    intro n v
    simp [strconv.parseUintLoop]
  | cons d ds ih =>
    intro n v
    simp only [strconv.parseUintLoop, List.all_cons, List.foldl_cons, Bool.and_eq_true]
    by_cases hd : strconv.isDigit d = true
    · have hv : d.toNat - 48 ≤ 9 := by
        simp only [strconv.isDigit, Bool.and_eq_true, decide_eq_true_eq] at hd
        omega
      rw [if_pos hd]
      have hge := foldl_decimal_ge ds (n * 10 + (d.toNat - 48))
      by_cases hcut : n ≥ strconv.cutoff64
      · rw [if_pos hcut]
        have : n * 10 + (d.toNat - 48) > M := by
          simp only [strconv.cutoff64] at hcut; norm_num at hcut; norm_num at h64; omega
        constructor
        · intro h; cases h
        · rintro ⟨-, hf, hm⟩
          rcases hm with hm | hm
          · cases hm
          · omega
      · rw [if_neg hcut]
        have hn10 : (n * 10) % 2 ^ 64 = n * 10 := by
          apply Nat.mod_eq_of_lt
          simp only [strconv.cutoff64] at hcut; norm_num at hcut; norm_num; omega
        simp only [hn10]
        by_cases hover : (n * 10 + (d.toNat - 48)) % 2 ^ 64 < n * 10 ∨
            (n * 10 + (d.toNat - 48)) % 2 ^ 64 > M
        · rw [if_pos hover]
          have : n * 10 + (d.toNat - 48) > M := by
            simp only [strconv.cutoff64] at hcut; norm_num at hcut
            norm_num at h64 hover; omega
          constructor
          · intro h; cases h
          · rintro ⟨-, hf, hm⟩
            rcases hm with hm | hm
            · cases hm
            · omega
        · rw [if_neg hover]
          have hn1 : (n * 10 + (d.toNat - 48)) % 2 ^ 64 = n * 10 + (d.toNat - 48) := by
            simp only [strconv.cutoff64] at hcut; norm_num at hcut
            norm_num at h64 hover ⊢; omega
          rw [hn1, ih]
          rw [hn1] at hover
          constructor
          · rintro ⟨ha, hf, hm⟩
            refine ⟨⟨hd, ha⟩, hf, Or.inr ?_⟩
            rcases hm with hm | hm
            · subst hm; simp only [List.foldl_nil] at hf; omega
            · exact hm
          · rintro ⟨⟨-, ha⟩, hf, hm⟩
            refine ⟨ha, hf, ?_⟩
            rcases hm with hm | hm
            · cases hm
            · exact Or.inr hm
    · rw [if_neg hd]
      constructor
      · intro h; cases h
      · rintro ⟨⟨h, -⟩, -⟩; exact absurd h hd

theorem parseUint_ok_iff (w : Nat) (h1 : 1 ≤ w) (h64 : w ≤ 64) (ds : List Char) (v : Nat) :
    strconv.ParseUint ds w = .ok v ↔
      (ds ≠ [] ∧ ds.all strconv.isDigit = true ∧ decimalValue ds = v ∧ v < 2 ^ w) := by
  obtain ⟨hpow, hle⟩ := two_pow_pred_lt w h1 h64
  have hpos : 0 < 2 ^ w := Nat.pow_pos (by norm_num)
  cases ds with
  | nil => simp [strconv.ParseUint]
  | cons d ds =>
    have hlen : ¬ ((d :: ds).length < 1) := by simp
    simp only [strconv.ParseUint, if_neg hlen]
    rw [parseUintLoop_ok_iff (2 ^ w - 1) (by omega)]
    simp only [decimalValue, ne_eq, reduceCtorEq, not_false_eq_true, false_or, true_and]
    constructor
    · rintro ⟨ha, hf, hm⟩; exact ⟨ha, hf, by omega⟩
    · rintro ⟨ha, hf, hm⟩; exact ⟨ha, hf, by omega⟩

theorem parseInt_body (c : Char) (rest : List Char) (w : Nat) :
    strconv.ParseInt (c :: rest) w =
      (match strconv.ParseUint (if c = '+' ∨ c = '-' then rest else c :: rest) w with
       | .error k => .error k
       | .ok un =>
         if c = '-' then (if un > 2 ^ (w - 1) then .error .outOfRange else .ok (-(un : Int)))
         else (if un ≥ 2 ^ (w - 1) then .error .outOfRange else .ok (un : Int))) := by
  simp only [strconv.ParseInt]
  rcases strconv.ParseUint (if c = '+' ∨ c = '-' then rest else c :: rest) w with k | un
  · cases k <;> rfl
  · by_cases hm : c = '-' <;> simp [hm]

/-- `ParseInt` in base 10 succeeds exactly on the decimal integer literals that
fit the word, and returns the number the literal denotes. -/
theorem parseInt_ok_iff (w : Nat) (h1 : 1 ≤ w) (h64 : w ≤ 64) (s : List Char) (i : Int) :
    strconv.ParseInt s w = .ok i ↔ (isIntLiteral w s = true ∧ i = intLiteralValue s) := by
  obtain ⟨hpow, hle⟩ := two_pow_pred_lt w h1 h64
  have hpos : 0 < 2 ^ (w - 1) := Nat.pow_pos (by norm_num)
  cases s with
  | nil => simp [strconv.ParseInt, isIntLiteral]
  | cons c rest =>
    rw [parseInt_body]
    by_cases hm : c = '-'
    · subst hm
      have hpm : ¬ ('-' = '+') := by decide
      simp only [or_true, if_true, isIntLiteral, intLiteralValue, Bool.and_eq_true,
        Bool.not_eq_true', List.isEmpty_eq_false, decide_eq_true_eq]
      rcases hres : strconv.ParseUint rest w with k | un
      · simp only [reduceCtorEq, false_iff]
        rintro ⟨⟨⟨hne, hall⟩, hb⟩, -⟩
        have := (parseUint_ok_iff w h1 h64 rest (decimalValue rest)).mpr
          ⟨by simpa using hne, hall, rfl, by omega⟩
        rw [hres] at this; cases this
      · obtain ⟨hne, hall, hval, hlt⟩ := (parseUint_ok_iff w h1 h64 rest un).mp hres
        subst hval
        dsimp only
        by_cases hb : decimalValue rest > 2 ^ (w - 1)
        · rw [if_pos hb]
          simp only [reduceCtorEq, false_iff]
          rintro ⟨⟨-, hb2⟩, -⟩; omega
        · rw [if_neg hb]
          simp only [Except.ok.injEq]
          constructor
          · intro h; exact ⟨⟨⟨by simpa using hne, hall⟩, by omega⟩, h.symm⟩
          · rintro ⟨-, h⟩; exact h.symm
    · by_cases hp : c = '+'
      · subst hp
        simp only [true_or, if_true, if_neg hm, isIntLiteral, intLiteralValue, Bool.and_eq_true,
          Bool.not_eq_true', List.isEmpty_eq_false, decide_eq_true_eq]
        rcases hres : strconv.ParseUint rest w with k | un
        · simp only [reduceCtorEq, false_iff]
          rintro ⟨⟨⟨hne, hall⟩, hb⟩, -⟩
          have := (parseUint_ok_iff w h1 h64 rest (decimalValue rest)).mpr
            ⟨by simpa using hne, hall, rfl, by omega⟩
          rw [hres] at this; cases this
        · obtain ⟨hne, hall, hval, hlt⟩ := (parseUint_ok_iff w h1 h64 rest un).mp hres
          subst hval
          dsimp only
          by_cases hb : decimalValue rest ≥ 2 ^ (w - 1)
          · rw [if_pos hb]
            simp only [reduceCtorEq, false_iff]
            rintro ⟨⟨-, hb2⟩, -⟩; omega
          · rw [if_neg hb]
            simp only [Except.ok.injEq]
            constructor
            · intro h; exact ⟨⟨⟨by simpa using hne, hall⟩, by omega⟩, h.symm⟩
            · rintro ⟨-, h⟩; exact h.symm
      · have hc : ¬ (c = '+' ∨ c = '-') := by rintro (h | h); exact hp h; exact hm h
        simp only [if_neg hc, if_neg hm, if_neg hp, isIntLiteral, intLiteralValue,
          Bool.and_eq_true, Bool.not_eq_true', List.isEmpty_eq_false, decide_eq_true_eq]
        rcases hres : strconv.ParseUint (c :: rest) w with k | un
        · simp only [reduceCtorEq, false_iff]
          rintro ⟨⟨⟨hne, hall⟩, hb⟩, -⟩
          have := (parseUint_ok_iff w h1 h64 (c :: rest) (decimalValue (c :: rest))).mpr
            ⟨by simp, hall, rfl, by omega⟩
          rw [hres] at this; cases this
        · obtain ⟨hne, hall, hval, hlt⟩ := (parseUint_ok_iff w h1 h64 (c :: rest) un).mp hres
          subst hval
          dsimp only
          by_cases hb : decimalValue (c :: rest) ≥ 2 ^ (w - 1)
          · rw [if_pos hb]
            simp only [reduceCtorEq, false_iff]
            rintro ⟨⟨-, hb2⟩, -⟩; omega
          · rw [if_neg hb]
            simp only [Except.ok.injEq]
            constructor
            · intro h; exact ⟨⟨⟨by simp, hall⟩, by omega⟩, h.symm⟩
            · rintro ⟨-, h⟩; exact h.symm

/-! ## Handle identifiers of the `raw_exec` driver -/

theorem trimPrefix_pid (body : String) : strings.TrimPrefix ("PID:" ++ body) "PID:" = body := by
  simp [strings.TrimPrefix, strings.HasPrefix, String.data_append]

theorem open_of_decode_error (env : OpenEnv) (handleID : String) (err : GoError)
    (h : RawExecDriver.decodeHandle env.intSize handleID = .error err) :
    (RawExecDriver.Open env handleID).exec =
      (.error (.errorfErr "failed to parse handle '%s': %v" [handleID] err), []) := by
  simp only [RawExecDriver.Open, h]
  rfl

theorem open_of_decode_ok (env : OpenEnv) (handleID : String) (pid : Int)
    (h : RawExecDriver.decodeHandle env.intSize handleID = .ok pid) :
    (RawExecDriver.Open env handleID).exec =
      (match env.FindProcess pid with
       | (some proc, none) =>
         (.ok { proc := proc, doneCh := Chan.make 0, waitCh := Chan.make 1 },
           [.findProcess pid, .goRun])
       | (_, some err) =>
         (.error (.errorfErr "failed to find PID %d: %v" [fmt.formatInt pid] err),
           [.findProcess pid])
       | (none, none) =>
         (.error (.errorf "failed to find PID %d: %v" [fmt.formatInt pid, "<nil>"]),
           [.findProcess pid])) := by
  simp only [RawExecDriver.Open, h, pure_bind]
  rcases hf : env.FindProcess pid with ⟨_ | proc, _ | err⟩ <;> rfl

theorem formatInt_data (i : Int) :
    (fmt.formatInt i).data =
      (if i < 0 then ['-'] else []) ++
        (if i = 0 then ['0'] else (Nat.digits 10 i.natAbs).reverse.map fmt.digitByte) := by
  by_cases h0 : i = 0
  · subst h0; rfl
  · have hpos : 0 < i.natAbs := Int.natAbs_pos.mpr h0
    simp only [fmt.formatInt, if_neg h0]
    rw [fmtLoop_digits i.natAbs i.natAbs [] hpos le_rfl, List.append_nil]

theorem decodeHandle_ok_iff (w : Nat) (h1 : 1 ≤ w) (h64 : w ≤ 64) (handleID : String)
    (pid : Int) :
    RawExecDriver.decodeHandle w handleID = .ok pid ↔
      (isIntLiteral w (strings.TrimPrefix handleID "PID:").data = true ∧
        pid = intLiteralValue (strings.TrimPrefix handleID "PID:").data) := by
  rw [← parseInt_ok_iff w h1 h64]
  simp only [RawExecDriver.decodeHandle, strconv.Atoi]
  rcases strconv.ParseInt (strings.TrimPrefix handleID "PID:").data w with k | v
  · simp
  · simp

theorem isIntLiteral_pid_prefix (w : Nat) (s : String)
    (h : strings.HasPrefix s "PID:" = true) : isIntLiteral w s.data = false := by
  simp only [strings.HasPrefix] at h
  rcases hs : s.data with _ | ⟨c, rest⟩
  · rw [hs] at h; simp at h
  · rw [hs] at h
    have hc : c = 'P' := by
      simp only [List.isPrefixOf, Bool.and_eq_true, beq_iff_eq] at h
      exact h.1.symm
    subst hc
    simp [isIntLiteral, strconv.isDigit]

/-- Decoding fails exactly on the identifiers that are neither `PID:<integer>`
nor a bare `<integer>`. -/
theorem decodeHandle_error_iff (w : Nat) (h1 : 1 ≤ w) (h64 : w ≤ 64) (handleID : String) :
    (∃ err, RawExecDriver.decodeHandle w handleID = .error err) ↔
      (isPidHandle w handleID = false ∧ isBareInteger w handleID = false) := by
  have hok := decodeHandle_ok_iff w h1 h64 handleID
  have hcase : (∃ err, RawExecDriver.decodeHandle w handleID = .error err) ↔
      isIntLiteral w (strings.TrimPrefix handleID "PID:").data = false := by
    rcases hd : RawExecDriver.decodeHandle w handleID with err | pid
    · have : ¬ isIntLiteral w (strings.TrimPrefix handleID "PID:").data = true := by
        intro hl
        have := (hok _).mpr ⟨hl, rfl⟩
        rw [hd] at this; cases this
      simp only [Except.error.injEq, exists_eq', true_iff]
      simpa using this
    · have := ((hok pid).mp hd).1
      simp [this]
  rw [hcase]
  have hlen : ("PID:" : String).data.length = 4 := rfl
  by_cases hp : strings.HasPrefix handleID "PID:" = true
  · simp only [strings.TrimPrefix, if_pos hp, isPidHandle, hp, Bool.true_and, hlen,
      isBareInteger, isIntLiteral_pid_prefix w handleID hp, and_true, if_true]
  · simp only [strings.TrimPrefix, if_neg hp, isPidHandle, isBareInteger]
    simp only [Bool.not_eq_true] at hp
    simp [hp]

/-- C1. Handle-id round trip of the `raw_exec` variant: for every process id `P`
of the platform's `int` range, `rawExecHandle.ID()` of a handle on process `P`
is `"PID:"` followed by the decimal rendering of `P` (a `-` for a negative
number, then the decimal digits of the magnitude, most significant first);
the decoding step of `RawExecDriver.Open` on that string succeeds and yields
`P`; so `Open` looks up process id `P`, and when the lookup succeeds it returns
a fresh handle on the process found and starts its watcher. -/
theorem rawExec_handle_id_round_trip (env : OpenEnv) (h : rawExecHandle)
    (h1 : 1 ≤ env.intSize) (h64 : env.intSize ≤ 64)
    (hlo : -(2 : Int) ^ (env.intSize - 1) ≤ h.proc.Pid)
    (hhi : h.proc.Pid < (2 : Int) ^ (env.intSize - 1)) :
    h.ID = "PID:" ++ fmt.formatInt h.proc.Pid ∧
    (fmt.formatInt h.proc.Pid).data =
      (if h.proc.Pid < 0 then ['-'] else []) ++
        (if h.proc.Pid = 0 then ['0']
         else (Nat.digits 10 h.proc.Pid.natAbs).reverse.map fmt.digitByte) ∧
    strings.TrimPrefix h.ID "PID:" = fmt.formatInt h.proc.Pid ∧
    RawExecDriver.decodeHandle env.intSize h.ID = .ok h.proc.Pid ∧
    (RawExecDriver.Open env h.ID).exec.2.head? = some (.findProcess h.proc.Pid) ∧
    (∀ p, env.FindProcess h.proc.Pid = (some p, none) →
      (RawExecDriver.Open env h.ID).exec =
        (.ok { proc := p, doneCh := Chan.make 0, waitCh := Chan.make 1 },
          [.findProcess h.proc.Pid, .goRun])) := by
  have htrim : strings.TrimPrefix h.ID "PID:" = fmt.formatInt h.proc.Pid :=
    trimPrefix_pid _
  have hdec : RawExecDriver.decodeHandle env.intSize h.ID = .ok h.proc.Pid := by
    simp only [RawExecDriver.decodeHandle, htrim, strconv.Atoi,
      parseInt_formatInt env.intSize h1 h64 h.proc.Pid hlo hhi]
  have hopen := open_of_decode_ok env h.ID h.proc.Pid hdec
  refine ⟨rfl, formatInt_data _, htrim, hdec, ?_, ?_⟩
  · rw [hopen]
    rcases env.FindProcess h.proc.Pid with ⟨_ | proc, _ | err⟩ <;> rfl
  · intro p hp
    rw [hopen, hp]

/-- Witness for C1: the handle of process 4242 on a 64-bit POSIX host. -/
theorem rawExec_handle_id_round_trip_witness :
    (rawExecHandle.mk ⟨4242⟩ (Chan.make 1) (Chan.make 0)).ID = "PID:4242" ∧
    RawExecDriver.decodeHandle 64 "PID:4242" = .ok 4242 ∧
    (RawExecDriver.Open unixEnv "PID:4242").exec =
      (.ok { proc := ⟨4242⟩, doneCh := Chan.make 0, waitCh := Chan.make 1 },
        [.findProcess 4242, .goRun]) := by
  have h := rawExec_handle_id_round_trip unixEnv
    (rawExecHandle.mk ⟨4242⟩ (Chan.make 1) (Chan.make 0))
    (by decide) (by decide) (by decide) (by decide)
  exact ⟨by decide, h.2.2.2.1, h.2.2.2.2.2 ⟨4242⟩ rfl⟩

/-- C8 as amended. For every handle identifier that is neither `"PID:"` followed
by a decimal integer literal nor a bare decimal integer literal, the decoding
step of `RawExecDriver.Open` fails, and `Open` returns the parse error and no
handle without looking up a process or starting a watcher. Decoding fails only
on such identifiers. -/
theorem rawExec_open_rejects_non_integer (env : OpenEnv) (handleID : String)
    (h1 : 1 ≤ env.intSize) (h64 : env.intSize ≤ 64) :
    ((isPidHandle env.intSize handleID = false ∧ isBareInteger env.intSize handleID = false) ↔
      ∃ err, RawExecDriver.decodeHandle env.intSize handleID = .error err) ∧
    (∀ err, RawExecDriver.decodeHandle env.intSize handleID = .error err →
      (RawExecDriver.Open env handleID).exec =
        (.error (.errorfErr "failed to parse handle '%s': %v" [handleID] err), [])) :=
  ⟨(decodeHandle_error_iff env.intSize h1 h64 handleID).symm,
    fun err h => open_of_decode_error env handleID err h⟩

/-- Witness for C8 as amended: the identifier `PID:x7`. -/
theorem rawExec_open_rejects_non_integer_witness :
    isPidHandle 64 "PID:x7" = false ∧ isBareInteger 64 "PID:x7" = false ∧
    (RawExecDriver.Open unixEnv "PID:x7").exec =
      (.error (.errorfErr "failed to parse handle '%s': %v" ["PID:x7"]
        (.numError "ParseInt" "x7" .invalid)), []) :=
  ⟨by decide, by decide,
    (rawExec_open_rejects_non_integer unixEnv "PID:x7" (by decide) (by decide)).2 _ (by decide)⟩

/-- Counterexample to C8 as stated: the identifier `42` does not start with
`PID:`, yet decoding succeeds and `Open` looks up process 42, returns a handle
and starts a watcher. -/
theorem rawExec_open_accepts_bare_integer :
    strings.HasPrefix "42" "PID:" = false ∧ isPidHandle 64 "42" = false ∧
    RawExecDriver.decodeHandle 64 "42" = .ok 42 ∧
    (RawExecDriver.Open unixEnv "42").exec =
      (.ok { proc := ⟨42⟩, doneCh := Chan.make 0, waitCh := Chan.make 1 },
        [.findProcess 42, .goRun]) := by
  decide

/-! ## The watcher and the completion channel -/

theorem Watch.inv_init (pub : Option GoError) : Watch.Inv pub Watch.init where
  pc_le := by decide
  not_panicked := rfl
  not_blocked := rfl
  trace_eq := rfl
  done_eq := rfl
  wait_cap := rfl
  wait_closed := rfl
  early := fun _ => ⟨rfl, rfl⟩
  late := fun h => by simp [Watch.init] at h

theorem Watch.inv_runStep (pub : Option GoError) (s : Watch) (h : Watch.Inv pub s) :
    Watch.Inv pub (s.runStep pub) ∧ (s.runStep pub).pc = min 4 (s.pc + 1) := by
  obtain ⟨hle, hp, hb, ht, hd, hcap, hcl, hearly, hlate⟩ := h
  rcases s with ⟨pc, doneCh, waitCh, trace, reads, panicked, sendBlocked⟩
  rcases waitCh with ⟨cap, buf, closed⟩
  dsimp only at hle hp hb ht hd hcap hcl hearly hlate
  subst hp hb ht hd hcap hcl
  interval_cases pc
  · obtain ⟨hbuf, hr⟩ := hearly (by decide)
    subst hbuf hr
    exact ⟨⟨by simp [Watch.runStep, Chan.close, Chan.send], rfl, rfl, rfl, rfl, rfl, rfl, fun _ => ⟨rfl, rfl⟩,
      fun h => by simp [Watch.runStep] at h⟩, rfl⟩
  · obtain ⟨hbuf, hr⟩ := hearly (by decide)
    subst hbuf hr
    exact ⟨⟨by simp [Watch.runStep, Chan.close, Chan.send], rfl, rfl, rfl, rfl, rfl, rfl, fun _ => ⟨rfl, rfl⟩,
      fun h => by simp [Watch.runStep, Chan.close] at h⟩, rfl⟩
  · obtain ⟨hbuf, hr⟩ := hearly (by decide)
    subst hbuf hr
    cases pub with
    | none =>
      exact ⟨⟨by simp [Watch.runStep, Chan.close, Chan.send], rfl, rfl, rfl, rfl, rfl, rfl,
        fun h => by simp [Watch.runStep] at h, fun _ => Or.inl ⟨rfl, rfl⟩⟩, rfl⟩
    | some e =>
      exact ⟨⟨by simp [Watch.runStep, Chan.close, Chan.send], rfl, rfl, rfl, rfl, rfl, rfl,
        fun h => by simp [Watch.runStep, Chan.send] at h, fun _ => Or.inl ⟨rfl, rfl⟩⟩, rfl⟩
  · have hl := hlate (by decide)
    refine ⟨⟨by simp [Watch.runStep, Chan.close, Chan.send], rfl, rfl, ?_, rfl, rfl, rfl,
      fun h => by simp [Watch.runStep, Chan.close] at h, fun _ => ?_⟩, rfl⟩
    · cases pub <;> rfl
    · rcases hl with ⟨hbuf, hr⟩ | ⟨hbuf, k, hr, hk⟩
      · exact Or.inl ⟨hbuf, hr⟩
      · exact Or.inr ⟨hbuf, k, hr, fun h => by simp [Watch.runStep, Chan.close] at h⟩
  · have hl := hlate (by decide)
    exact ⟨⟨by simp [Watch.runStep, Chan.close, Chan.send], rfl, rfl, rfl, rfl, rfl, rfl,
      fun h => by simp [Watch.runStep] at h, fun _ => hl⟩, rfl⟩

theorem Watch.readsOf_succ (pub : Option GoError) (k : Nat) :
    Watch.readsOf pub k ++ [{ err := none, ok := false }] = Watch.readsOf pub (k + 1) := by
  simp only [Watch.readsOf, List.append_assoc, List.replicate_succ']

theorem Watch.inv_readStep (pub : Option GoError) (s : Watch) (h : Watch.Inv pub s) :
    Watch.Inv pub s.readStep ∧ s.readStep.pc = s.pc := by
  obtain ⟨hle, hp, hb, ht, hd, hcap, hcl, hearly, hlate⟩ := h
  rcases s with ⟨pc, doneCh, waitCh, trace, reads, panicked, sendBlocked⟩
  rcases waitCh with ⟨cap, buf, closed⟩
  dsimp only at hle hp hb ht hd hcap hcl hearly hlate
  subst hp hb ht hd hcap hcl
  by_cases h2 : pc ≤ 2
  · obtain ⟨hbuf, hr⟩ := hearly h2
    subst hbuf hr
    have hne : ¬ (pc = 4) := by omega
    have hs : Watch.readStep
        { pc := pc, doneCh := { cap := 0, buf := [], closed := decide (2 ≤ pc) },
          waitCh := { cap := 1, buf := [], closed := decide (pc = 4) },
          trace := Watch.traceAt pub pc, reads := [], panicked := false, sendBlocked := false } =
        { pc := pc, doneCh := { cap := 0, buf := [], closed := decide (2 ≤ pc) },
          waitCh := { cap := 1, buf := [], closed := decide (pc = 4) },
          trace := Watch.traceAt pub pc, reads := [], panicked := false, sendBlocked := false } := by
      simp [Watch.readStep, Chan.recv, hne]
    rw [hs]
    exact ⟨⟨hle, rfl, rfl, rfl, rfl, rfl, rfl, fun _ => ⟨rfl, rfl⟩, fun h => by dsimp only at h; omega⟩,
      rfl⟩
  · have h3 : 3 ≤ pc := by omega
    have hearly' : ∀ (b : List GoError) (r : List Read), pc ≤ 2 → b = [] ∧ r = [] :=
      fun _ _ h => absurd h h2
    rcases hlate h3 with ⟨hbuf, hr⟩ | ⟨hbuf, k, hr, hk⟩
    · subst hbuf hr
      cases pub with
      | some e =>
        refine ⟨⟨hle, rfl, rfl, rfl, rfl, rfl, rfl, fun h => absurd h h2, fun _ => Or.inr ⟨rfl, 0, rfl, fun _ => rfl⟩⟩, rfl⟩
      | none =>
        by_cases h4 : pc = 4
        · subst h4
          refine ⟨⟨hle, rfl, rfl, rfl, rfl, rfl, rfl, fun h => absurd h h2,
            fun _ => Or.inr ⟨rfl, 1, rfl, fun h => absurd (show (4 : Nat) < 4 from h) (by omega)⟩⟩, rfl⟩
        · have hs : Watch.readStep
              { pc := pc, doneCh := { cap := 0, buf := [], closed := decide (2 ≤ pc) },
                waitCh := { cap := 1, buf := (none : Option GoError).toList, closed := decide (pc = 4) },
                trace := Watch.traceAt none pc, reads := [], panicked := false,
                sendBlocked := false } =
              { pc := pc, doneCh := { cap := 0, buf := [], closed := decide (2 ≤ pc) },
                waitCh := { cap := 1, buf := (none : Option GoError).toList, closed := decide (pc = 4) },
                trace := Watch.traceAt none pc, reads := [], panicked := false,
                sendBlocked := false } := by
            simp [Watch.readStep, Chan.recv, h4]
          rw [hs]
          exact ⟨⟨hle, rfl, rfl, rfl, rfl, rfl, rfl, fun h => absurd h h2,
            fun _ => Or.inl ⟨rfl, rfl⟩⟩, rfl⟩
    · subst hbuf hr
      by_cases h4 : pc = 4
      · subst h4
        refine ⟨⟨hle, rfl, rfl, rfl, rfl, rfl, rfl, fun h => absurd h h2,
          fun _ => Or.inr ⟨rfl, k + 1, ?_, fun h => absurd (show (4 : Nat) < 4 from h) (by omega)⟩⟩, rfl⟩
        exact Watch.readsOf_succ pub k
      · have hs : Watch.readStep
            { pc := pc, doneCh := { cap := 0, buf := [], closed := decide (2 ≤ pc) },
              waitCh := { cap := 1, buf := [], closed := decide (pc = 4) },
              trace := Watch.traceAt pub pc, reads := Watch.readsOf pub k, panicked := false,
              sendBlocked := false } =
            { pc := pc, doneCh := { cap := 0, buf := [], closed := decide (2 ≤ pc) },
              waitCh := { cap := 1, buf := [], closed := decide (pc = 4) },
              trace := Watch.traceAt pub pc, reads := Watch.readsOf pub k, panicked := false,
              sendBlocked := false } := by
          simp [Watch.readStep, Chan.recv, h4]
        rw [hs]
        exact ⟨⟨hle, rfl, rfl, rfl, rfl, rfl, rfl, fun h => absurd h h2,
          fun _ => Or.inr ⟨rfl, k, rfl, hk⟩⟩, rfl⟩

theorem Watch.run_snoc (pub : Option GoError) (sched : List Actor) (a : Actor) :
    Watch.run pub (sched ++ [a]) = Watch.step pub (Watch.run pub sched) a := by
  simp [Watch.run, Watch.runFrom, List.foldl_append]

/-- Every state reached from a fresh handle satisfies the invariant, and the
watcher's position is the number of steps it was given, up to its end. -/
theorem Watch.run_inv (pub : Option GoError) (sched : List Actor) :
    Watch.Inv pub (Watch.run pub sched) ∧
      (Watch.run pub sched).pc = min 4 (watcherSteps sched) := by
  induction sched using List.reverseRecOn with
  | nil => exact ⟨Watch.inv_init pub, rfl⟩
  | append_singleton sched a ih =>
    obtain ⟨hinv, hpc⟩ := ih
    rw [Watch.run_snoc]
    cases a with
    | watcher =>
      obtain ⟨h1, h2⟩ := Watch.inv_runStep pub _ hinv
      refine ⟨h1, ?_⟩
      simp only [Watch.step, h2, hpc, watcherSteps, List.count_append, List.count_singleton,
        beq_self_eq_true, if_true]
      omega
    | consumer =>
      obtain ⟨h1, h2⟩ := Watch.inv_readStep pub _ hinv
      refine ⟨h1, ?_⟩
      simp only [Watch.step, h2, hpc, watcherSteps, List.count_append, List.count_singleton]
      simp

/-- What the invariant says about the watcher's trace and the done signal. -/
theorem Watch.trace_facts (pub : Option GoError) (s : Watch) (h : Watch.Inv pub s) :
    (s.trace.filter WEvent.isSend).length ≤ 1 ∧
    s.trace.count .closeWait ≤ 1 ∧
    s.trace.count .waitReturned ≤ 1 ∧
    s.trace.count .closeDone ≤ 1 ∧
    (1 ≤ s.pc → s.trace.count .waitReturned = 1) ∧
    (s.pc = 4 → s.trace = Watch.fullTrace pub ∧ s.trace.count .closeWait = 1) ∧
    (s.doneCh.closed = true ↔ 2 ≤ s.pc) ∧
    (WEvent.closeDone ∈ s.trace ↔ 2 ≤ s.pc) ∧
    (WEvent.waitReturned ∈ s.trace ↔ 1 ≤ s.pc) ∧
    (2 ≤ s.pc → s.trace.take 2 = [.waitReturned, .closeDone]) ∧
    (∀ e ∈ s.trace, e.onWaitCh = true → 3 ≤ s.pc) ∧
    (∀ e ∈ s.trace.drop 2, e.onWaitCh = true) ∧
    (∀ e ∈ s.trace.take 2, e.onWaitCh = false) := by
  obtain ⟨hle, -, -, ht, hd, -, -, -, -⟩ := h
  rcases s with ⟨pc, doneCh, waitCh, trace, reads, panicked, sendBlocked⟩
  dsimp only at hle ht hd
  subst ht hd
  dsimp only
  interval_cases pc <;> cases pub <;>
    simp [Watch.traceAt, Watch.fullTrace, WEvent.isSend, WEvent.onWaitCh]

theorem Watch.readsOf_get (pub : Option GoError) (k : Nat) :
    (∀ rd, (Watch.readsOf pub k)[0]? = some rd →
      rd = Watch.firstRead pub) ∧
    (∀ i rd, 0 < i → (Watch.readsOf pub k)[i]? = some rd → rd = { err := none, ok := false }) := by
  cases pub with
  | none =>
    simp only [Watch.readsOf, List.nil_append, Watch.firstRead]
    constructor
    · intro rd h
      have := List.getElem?_mem h
      exact (List.mem_replicate.mp this).2
    · intro i rd _ h
      have := List.getElem?_mem h
      exact (List.mem_replicate.mp this).2
  | some e =>
    simp only [Watch.readsOf, List.singleton_append, Watch.firstRead]
    constructor
    · intro rd h
      simpa using h.symm
    · intro i rd hi h
      obtain ⟨j, rfl⟩ : ∃ j, i = j + 1 := ⟨i - 1, by omega⟩
      rw [List.getElem?_cons_succ] at h
      have := List.getElem?_mem h
      exact (List.mem_replicate.mp this).2

/-- What the invariant says about the consumer's reads: the first one is the
published error, or the closed channel's zero result when nothing was
published; every later one is the closed channel's zero result. -/
theorem Watch.reads_facts (pub : Option GoError) (s : Watch) (h : Watch.Inv pub s) :
    (∀ rd, s.reads[0]? = some rd →
      rd = Watch.firstRead pub) ∧
    (∀ i rd, 0 < i → s.reads[i]? = some rd → rd = { err := none, ok := false }) ∧
    (s.pc < 4 → s.reads.length ≤ 1 ∧ ∀ rd ∈ s.reads, rd.ok = true) := by
  have hcases : s.reads = [] ∨ ∃ k, s.reads = Watch.readsOf pub k ∧ (s.pc < 4 → k = 0) := by
    by_cases h2 : s.pc ≤ 2
    · exact Or.inl (h.early h2).2
    · rcases h.late (by omega) with ⟨-, hr⟩ | ⟨-, k, hr, hk⟩
      · exact Or.inl hr
      · exact Or.inr ⟨k, hr, hk⟩
  rcases hcases with hr | ⟨k, hr, hk⟩
  · rw [hr]; simp
  · rw [hr]
    refine ⟨(Watch.readsOf_get pub k).1, (Watch.readsOf_get pub k).2, fun hlt => ?_⟩
    rw [hk hlt]
    cases pub <;> simp [Watch.readsOf]

/-- Once the watcher has returned, a receive on the completion channel never
blocks: it yields a result at once. -/
theorem Watch.read_after_end (pub : Option GoError) (s : Watch) (h : Watch.Inv pub s)
    (h4 : s.pc = 4) : ∃ rd, s.readStep.reads = s.reads ++ [rd] := by
  have hcl := h.wait_closed
  rw [h4] at hcl
  simp only [decide_True] at hcl
  rcases s with ⟨pc, doneCh, waitCh, trace, reads, panicked, sendBlocked⟩
  rcases waitCh with ⟨cap, buf, closed⟩
  dsimp only at hcl
  subst hcl
  cases buf with
  | nil => exact ⟨_, rfl⟩
  | cons v rest => exact ⟨_, rfl⟩

theorem watcherSteps_append (sched later : List Actor) :
    watcherSteps (sched ++ later) = watcherSteps sched + watcherSteps later := by
  simp [watcherSteps, List.count_append]

/-- The done signal stays closed, and it is closed only after the wait has
returned. -/
theorem Watch.done_closed_later (pub : Option GoError) (sched later : List Actor)
    (h : (Watch.run pub sched).doneCh.closed = true ∨
      (Watch.run pub (sched ++ later)).doneCh.closed = true) :
    (Watch.run pub (sched ++ later)).doneCh.closed = true ∧
      WEvent.waitReturned ∈ (Watch.run pub (sched ++ later)).trace := by
  obtain ⟨hinv1, hpc1⟩ := Watch.run_inv pub sched
  obtain ⟨hinv2, hpc2⟩ := Watch.run_inv pub (sched ++ later)
  have t1 := Watch.trace_facts pub _ hinv1
  have t2 := Watch.trace_facts pub _ hinv2
  have hsteps := watcherSteps_append sched later
  have h2 : 2 ≤ (Watch.run pub (sched ++ later)).pc := by
    rcases h with h | h
    · have := t1.2.2.2.2.2.2.1.mp h
      omega
    · exact t2.2.2.2.2.2.2.1.mp h
  exact ⟨t2.2.2.2.2.2.2.1.mpr h2, t2.2.2.2.2.2.2.2.2.1.mpr (by omega)⟩

/-- Before the watcher has closed the completion channel, a receive on the
empty channel blocks. -/
theorem Watch.read_blocks_before_end (pub : Option GoError) (s : Watch) (h : Watch.Inv pub s)
    (h4 : s.pc < 4) (hbuf : s.waitCh.buf = []) : s.readStep = s := by
  have hcl := h.wait_closed
  have hne : ¬ (s.pc = 4) := by omega
  simp only [hne, decide_False] at hcl
  simp [Watch.readStep, Chan.recv, hbuf, hcl]

/-- What the first receive yields and what the watcher run to its end has done,
for a given published value. -/
theorem Watch.first_read_and_trace (pub : Option GoError) (sched : List Actor) :
    (∀ rd, (Watch.run pub sched).reads[0]? = some rd → rd = Watch.firstRead pub) ∧
    (4 ≤ watcherSteps sched → (Watch.run pub sched).trace = Watch.fullTrace pub) := by
  obtain ⟨hinv, hpc⟩ := Watch.run_inv pub sched
  refine ⟨(Watch.reads_facts pub _ hinv).1, fun h4 => ?_⟩
  exact ((Watch.trace_facts pub _ hinv).2.2.2.2.2.1 (by rw [hpc]; omega)).1

/-- C2 as amended. One-shot completion: for every result of the watcher's wait
(wait error, unsuccessful exit, clean exit), for both handle variants and under
every interleaving of the watcher with a consumer of `WaitCh()`: the watcher
never panics; its send never blocks on the capacity-1 channel; it sends at most
one value and closes the channel at most once; once it has taken its four
steps it has closed the channel exactly once and every further receive yields a
result at once, while before that a receive on the empty channel blocks. The
first receive yields the published value with `ok = true`: the wait error after
a failed wait, the error `task exited with error` after an exit with a non-zero
status (for an `execHandle`, the error its executor's `Wait` returned); when
nothing was published (exit status 0, or `Wait` returned `nil`) it yields the
closed channel's zero result (`nil`, not ok). Every later receive yields the
closed channel's zero result, so the error is delivered once and a second read
repeats the first only when nothing was published. -/
theorem completion_one_shot (r : WaitResult) (err : Option GoError) (sched : List Actor)
    (pub : Option GoError) (w : Watch)
    (hw : (pub = rawExecHandle.published r ∧ w = rawExecHandle.run r sched) ∨
      (pub = execHandle.published err ∧ w = execHandle.run err sched)) :
    w.panicked = false ∧ w.sendBlocked = false ∧
    (w.trace.filter WEvent.isSend).length ≤ 1 ∧
    w.trace.count .closeWait ≤ 1 ∧
    w.pc = min 4 (watcherSteps sched) ∧
    (4 ≤ watcherSteps sched →
      w.trace.count .closeWait = 1 ∧ w.waitCh.closed = true ∧
        ∃ rd, w.readStep.reads = w.reads ++ [rd]) ∧
    (∀ rd, w.reads[0]? = some rd → rd = Watch.firstRead pub) ∧
    (∀ i rd, 0 < i → w.reads[i]? = some rd → rd = { err := none, ok := false }) ∧
    (watcherSteps sched < 4 → w.waitCh.buf = [] → w.readStep = w) ∧
    (∀ (e : GoError) (s : List Actor),
      (∀ rd, (rawExecHandle.run (.failed e) s).reads[0]? = some rd →
        rd = { err := some e, ok := true }) ∧
      (4 ≤ watcherSteps s → (rawExecHandle.run (.failed e) s).trace =
        [.waitReturned, .closeDone, .sendWait e, .closeWait])) ∧
    (∀ (status : Int) (s : List Actor), status ≠ 0 →
      (∀ rd, (rawExecHandle.run (.exited status) s).reads[0]? = some rd →
        rd = { err := some (.errorf "task exited with error" []), ok := true }) ∧
      (4 ≤ watcherSteps s → (rawExecHandle.run (.exited status) s).trace =
        [.waitReturned, .closeDone, .sendWait (.errorf "task exited with error" []),
          .closeWait])) ∧
    (∀ s : List Actor,
      (∀ rd, (rawExecHandle.run (.exited 0) s).reads[0]? = some rd →
        rd = { err := none, ok := false }) ∧
      (4 ≤ watcherSteps s → (rawExecHandle.run (.exited 0) s).trace =
        [.waitReturned, .closeDone, .closeWait])) ∧
    (∀ (e : GoError) (s : List Actor),
      (∀ rd, (execHandle.run (some e) s).reads[0]? = some rd →
        rd = { err := some e, ok := true }) ∧
      (4 ≤ watcherSteps s → (execHandle.run (some e) s).trace =
        [.waitReturned, .closeDone, .sendWait e, .closeWait])) ∧
    (∀ s : List Actor,
      (∀ rd, (execHandle.run none s).reads[0]? = some rd →
        rd = { err := none, ok := false }) ∧
      (4 ≤ watcherSteps s → (execHandle.run none s).trace =
        [.waitReturned, .closeDone, .closeWait])) := by
  have hrun : w = Watch.run pub sched := by
    rcases hw with ⟨h1, h2⟩ | ⟨h1, h2⟩
    · rw [h1, h2]; rfl
    · rw [h1, h2]; rfl
  subst hrun
  obtain ⟨hinv, hpc⟩ := Watch.run_inv pub sched
  have ht := Watch.trace_facts pub _ hinv
  have hr := Watch.reads_facts pub _ hinv
  refine ⟨hinv.not_panicked, hinv.not_blocked, ht.1, ht.2.1, hpc, fun h4 => ?_, hr.1, hr.2.1,
    fun hlt hbuf => Watch.read_blocks_before_end pub _ hinv (by rw [hpc]; omega) hbuf,
    fun e s => ?_, fun status s hs => ?_, fun s => ?_, fun e s => ?_, fun s => ?_⟩
  · have hpc4 : (Watch.run pub sched).pc = 4 := by rw [hpc]; omega
    refine ⟨(ht.2.2.2.2.2.1 hpc4).2, ?_, Watch.read_after_end pub _ hinv hpc4⟩
    rw [hinv.wait_closed, hpc4]; rfl
  · exact Watch.first_read_and_trace (some e) s
  · have hp : rawExecHandle.published (.exited status) =
        some (.errorf "task exited with error" []) := by
      simp [rawExecHandle.published, WaitResult.Success, hs]
    simp only [rawExecHandle.run, hp]
    exact Watch.first_read_and_trace _ s
  · exact Watch.first_read_and_trace none s
  · exact Watch.first_read_and_trace (some e) s
  · exact Watch.first_read_and_trace none s

/-- Witness for C2 as amended: a process that exits with status 1, the watcher
running to its end, then two receives. -/
theorem completion_one_shot_witness :
    (rawExecHandle.run (.exited 1) [.watcher, .watcher, .watcher, .watcher, .consumer, .consumer]).trace.count
        .closeWait = 1 ∧
    (∀ i rd, 0 < i →
      (rawExecHandle.run (.exited 1)
        [.watcher, .watcher, .watcher, .watcher, .consumer, .consumer]).reads[i]? = some rd →
      rd = { err := none, ok := false }) :=
  have h := completion_one_shot (.exited 1) none
    [.watcher, .watcher, .watcher, .watcher, .consumer, .consumer]
    (rawExecHandle.published (.exited 1)) _ (Or.inl ⟨rfl, rfl⟩)
  ⟨(h.2.2.2.2.2.1 (by decide)).1, h.2.2.2.2.2.2.2.1⟩

/-- Counterexample to C2 as stated: after an unsuccessful exit, the first read
of `WaitCh()` yields the error and the second read yields `nil` from the closed
channel, so the second read does not yield what the first did. -/
theorem completion_second_read_differs :
    (rawExecHandle.run (.exited 1)
      [.watcher, .watcher, .watcher, .watcher, .consumer, .consumer]).reads =
      [{ err := some (.errorf "task exited with error" []), ok := true },
       { err := none, ok := false }] ∧
    (rawExecHandle.run (.exited 1)
      [.watcher, .watcher, .watcher, .watcher, .consumer, .consumer]).reads[0]? ≠
    (rawExecHandle.run (.exited 1)
      [.watcher, .watcher, .watcher, .watcher, .consumer, .consumer]).reads[1]? := by
  decide

/-- C3. The completion outcome reflects the exit status. When the wait itself
succeeds, the watcher of a `rawExecHandle`, run to its end, sends nothing and
closes the channel if the exit status is 0, and sends exactly the error
`task exited with error` before closing it if the status is not 0; the same
holds for an `execHandle` with the exit-failure error its executor's `Wait`
returns. So an error is published if and only if the exit was unsuccessful,
and the first read of `WaitCh()` reports accordingly. -/
theorem completion_reflects_exit_status (status : Int) (exitFailure : Int → GoError)
    (sched : List Actor) (hend : 4 ≤ watcherSteps sched) :
    (status = 0 →
      (rawExecHandle.run (.exited status) sched).trace = [.waitReturned, .closeDone, .closeWait] ∧
      (∀ rd, (rawExecHandle.run (.exited status) sched).reads[0]? = some rd →
        rd = { err := none, ok := false }) ∧
      (execHandle.run (Executor.Wait exitFailure (.exit status)) sched).trace =
        [.waitReturned, .closeDone, .closeWait] ∧
      (∀ rd, (execHandle.run (Executor.Wait exitFailure (.exit status)) sched).reads[0]? = some rd →
        rd = { err := none, ok := false })) ∧
    (status ≠ 0 →
      (rawExecHandle.run (.exited status) sched).trace =
        [.waitReturned, .closeDone, .sendWait (.errorf "task exited with error" []), .closeWait] ∧
      (∀ rd, (rawExecHandle.run (.exited status) sched).reads[0]? = some rd →
        rd = { err := some (.errorf "task exited with error" []), ok := true }) ∧
      (execHandle.run (Executor.Wait exitFailure (.exit status)) sched).trace =
        [.waitReturned, .closeDone, .sendWait (exitFailure status), .closeWait] ∧
      (∀ rd, (execHandle.run (Executor.Wait exitFailure (.exit status)) sched).reads[0]? = some rd →
        rd = { err := some (exitFailure status), ok := true })) ∧
    ((∃ e, WEvent.sendWait e ∈ (rawExecHandle.run (.exited status) sched).trace) ↔ status ≠ 0) ∧
    ((∃ e, WEvent.sendWait e ∈
        (execHandle.run (Executor.Wait exitFailure (.exit status)) sched).trace) ↔ status ≠ 0) ∧
    (∃ rd, (rawExecHandle.run (.exited status) sched).readStep.reads =
      (rawExecHandle.run (.exited status) sched).reads ++ [rd]) ∧
    (∃ rd, (execHandle.run (Executor.Wait exitFailure (.exit status)) sched).readStep.reads =
      (execHandle.run (Executor.Wait exitFailure (.exit status)) sched).reads ++ [rd]) := by
  have key : ∀ pub : Option GoError,
      (Watch.run pub sched).trace = Watch.fullTrace pub ∧
      (∀ rd, (Watch.run pub sched).reads[0]? = some rd → rd = Watch.firstRead pub) ∧
      (∃ rd, (Watch.run pub sched).readStep.reads = (Watch.run pub sched).reads ++ [rd]) := by
    intro pub
    obtain ⟨hinv, hpc⟩ := Watch.run_inv pub sched
    have hpc4 : (Watch.run pub sched).pc = 4 := by rw [hpc]; omega
    exact ⟨((Watch.trace_facts pub _ hinv).2.2.2.2.2.1 hpc4).1,
      (Watch.reads_facts pub _ hinv).1, Watch.read_after_end pub _ hinv hpc4⟩
  have hraw := key (rawExecHandle.published (.exited status))
  have hexec := key (execHandle.published (Executor.Wait exitFailure (.exit status)))
  simp only [rawExecHandle.run, execHandle.run]
  by_cases h0 : status = 0
  · have p1 : rawExecHandle.published (.exited status) = none := by
      simp [rawExecHandle.published, WaitResult.Success, h0]
    have p2 : execHandle.published (Executor.Wait exitFailure (.exit status)) = none := by
      simp [execHandle.published, Executor.Wait, h0]
    rw [p1] at hraw ⊢
    rw [p2] at hexec ⊢
    refine ⟨fun _ => ⟨hraw.1, hraw.2.1, hexec.1, hexec.2.1⟩, fun h => absurd h0 h, ?_, ?_,
      hraw.2.2, hexec.2.2⟩
    · rw [hraw.1]; simp [Watch.fullTrace, h0]
    · rw [hexec.1]; simp [Watch.fullTrace, h0]
  · have p1 : rawExecHandle.published (.exited status) =
        some (.errorf "task exited with error" []) := by
      simp [rawExecHandle.published, WaitResult.Success, h0]
    have p2 : execHandle.published (Executor.Wait exitFailure (.exit status)) =
        some (exitFailure status) := by
      simp [execHandle.published, Executor.Wait, h0]
    rw [p1] at hraw ⊢
    rw [p2] at hexec ⊢
    refine ⟨fun h => absurd h h0, fun _ => ⟨hraw.1, hraw.2.1, hexec.1, hexec.2.1⟩, ?_, ?_,
      hraw.2.2, hexec.2.2⟩
    · rw [hraw.1]; simp [Watch.fullTrace, h0]
    · rw [hexec.1]; simp [Watch.fullTrace, h0]

/-- Witness for C3: exit status 2, the watcher run to its end, one receive. -/
theorem completion_reflects_exit_status_witness :
    (rawExecHandle.run (.exited 2) [.watcher, .watcher, .watcher, .watcher, .consumer]).trace =
      [.waitReturned, .closeDone, .sendWait (.errorf "task exited with error" []), .closeWait] ∧
    (execHandle.run (Executor.Wait (fun _ => .foreign "exit failure") (.exit 0))
      [.watcher, .watcher, .watcher, .watcher, .consumer]).trace =
      [.waitReturned, .closeDone, .closeWait] :=
  ⟨((completion_reflects_exit_status 2 (fun _ => .foreign "exit failure")
      [.watcher, .watcher, .watcher, .watcher, .consumer] (by decide)).2.1 (by decide)).1,
   ((completion_reflects_exit_status 0 (fun _ => .foreign "exit failure")
      [.watcher, .watcher, .watcher, .watcher, .consumer] (by decide)).1 rfl).2.2.1⟩

/-- C10. Watcher publish order: for every handle of either variant, every
result of the wait and every interleaving with a consumer, the watcher waits at
most once, and exactly once as soon as it has taken a step; the done signal is
closed exactly when `close(doneCh)` is in the watcher's trace, which is never
before the wait has returned; the close of the done signal is the watcher's
second step, taken right after the wait whatever the consumer does, so no step
on the completion channel comes before it or delays it; every send on or close
of the completion channel comes after it; and the watcher run to its end has
done exactly: wait, close the done signal, send the error if there is one,
close the completion channel. -/
theorem watcher_publish_order (r : WaitResult) (err : Option GoError) (sched : List Actor)
    (pub : Option GoError) (w : Watch)
    (hw : (pub = rawExecHandle.published r ∧ w = rawExecHandle.run r sched) ∨
      (pub = execHandle.published err ∧ w = execHandle.run err sched)) :
    w.trace.count .waitReturned ≤ 1 ∧
    (1 ≤ watcherSteps sched → w.trace.count .waitReturned = 1) ∧
    w.trace.count .closeDone ≤ 1 ∧
    (w.doneCh.closed = true ↔ WEvent.closeDone ∈ w.trace) ∧
    (w.doneCh.closed = true → WEvent.waitReturned ∈ w.trace) ∧
    (w.doneCh.closed = true ↔ 2 ≤ watcherSteps sched) ∧
    (WEvent.closeDone ∈ w.trace → w.trace.take 2 = [.waitReturned, .closeDone]) ∧
    (∀ e ∈ w.trace, e.onWaitCh = true →
      w.doneCh.closed = true ∧ w.trace.take 2 = [.waitReturned, .closeDone]) ∧
    (∀ e ∈ w.trace.take 2, e.onWaitCh = false) ∧
    (∀ e ∈ w.trace.drop 2, e.onWaitCh = true) ∧
    (4 ≤ watcherSteps sched →
      w.trace = [.waitReturned, .closeDone] ++
        (match pub with | some e => [.sendWait e] | none => []) ++ [.closeWait]) := by
  have hrun : w = Watch.run pub sched := by
    rcases hw with ⟨h1, h2⟩ | ⟨h1, h2⟩
    · rw [h1, h2]; rfl
    · rw [h1, h2]; rfl
  subst hrun
  obtain ⟨hinv, hpc⟩ := Watch.run_inv pub sched
  obtain ⟨-, -, t3, t4, t5, t6, t7, t8, t9, t10, t11, t12, t13⟩ := Watch.trace_facts pub _ hinv
  refine ⟨t3, fun h => t5 (by rw [hpc]; omega), t4, t7.trans t8.symm,
    fun h => t9.mpr (by have := t7.mp h; omega), ?_, fun h => t10 (t8.mp h), ?_, t13, t12, ?_⟩
  · rw [t7, hpc]; omega
  · intro e he hon
    have h3 := t11 e he hon
    exact ⟨t7.mpr (by omega), t10 (by omega)⟩
  · intro h4
    exact (t6 (by rw [hpc]; omega)).1

/-- Witness for C10: a wait error, the watcher run for three steps with a
consumer in between. -/
theorem watcher_publish_order_witness :
    (execHandle.run (some (.foreign "wait: no child processes"))
      [.watcher, .consumer, .watcher, .consumer, .watcher]).trace =
      [.waitReturned, .closeDone, .sendWait (.foreign "wait: no child processes")] ∧
    (execHandle.run (some (.foreign "wait: no child processes"))
      [.watcher, .consumer, .watcher, .consumer, .watcher]).trace.take 2 =
      [.waitReturned, .closeDone] :=
  ⟨by decide,
   (watcher_publish_order (.exited 0) (some (.foreign "wait: no child processes"))
      [.watcher, .consumer, .watcher, .consumer, .watcher]
      (execHandle.published (some (.foreign "wait: no child processes"))) _
      (Or.inr ⟨rfl, rfl⟩)).2.2.2.2.2.2.1 (by decide)⟩

/-! ## `Kill` -/

/-- C4 as amended. Graceful kill: for every `execHandle`, and for every
`rawExecHandle` on a host whose `runtime.GOOS` is not `windows`, if the done
signal fires before the 5-second timer (it is closed already when `Kill` is
called, or the watcher closes it within the grace period), `Kill()` sends the
graceful request, takes the done case, returns `nil` and does not invoke the
forced stop. On `windows` `rawExecHandle.Kill` sends no graceful request and
returns the outcome of `proc.Kill()` at once. -/
theorem kill_graceful (rh : rawExecHandle) (eh : execHandle) (env : KillEnv)
    (hraw : rh.doneCh.closed = true ∨ env.doneWithinGrace = true)
    (hexec : eh.doneCh.closed = true ∨ env.doneWithinGrace = true) :
    ((eh.Kill env).ret = none ∧ (eh.Kill env).trace = [.shutdown, .recvDone] ∧
      ∀ e ∈ (eh.Kill env).trace, e.isForce = false) ∧
    (env.goos ≠ "windows" →
      (rh.Kill env).ret = none ∧ (rh.Kill env).trace = [.signalInterrupt, .recvDone] ∧
        ∀ e ∈ (rh.Kill env).trace, e.isForce = false) ∧
    (env.goos = "windows" →
      (rh.Kill env).ret = env.force ∧ (rh.Kill env).trace = [.procKill]) := by
  have h1 : doneFirst rh.doneCh env = true := by
    simp only [doneFirst, Bool.or_eq_true]; exact hraw
  have h2 : doneFirst eh.doneCh env = true := by
    simp only [doneFirst, Bool.or_eq_true]; exact hexec
  refine ⟨?_, fun hw => ?_, fun hw => ?_⟩
  · simp [execHandle.Kill, h2, KEvent.isForce]
  · simp [rawExecHandle.Kill, hw, h1, KEvent.isForce]
  · simp [rawExecHandle.Kill, hw]

/-- Witness for C4 as amended: handles whose done signal is closed already, on
a Linux host. -/
theorem kill_graceful_witness :
    (execHandle.Kill ⟨⟨"s", "c", [], []⟩, Chan.make 1, ⟨0, [], true⟩⟩
      ⟨"linux", none, false, some (.foreign "not reached")⟩).ret = none ∧
    (rawExecHandle.Kill ⟨⟨7⟩, Chan.make 1, ⟨0, [], true⟩⟩
      ⟨"linux", none, false, some (.foreign "not reached")⟩).ret = none :=
  have h := kill_graceful ⟨⟨7⟩, Chan.make 1, ⟨0, [], true⟩⟩
    ⟨⟨"s", "c", [], []⟩, Chan.make 1, ⟨0, [], true⟩⟩
    ⟨"linux", none, false, some (.foreign "not reached")⟩ (Or.inl rfl) (Or.inl rfl)
  ⟨h.1.1, (h.2.1 (by decide)).1⟩

/-- Counterexample to C4 as stated: on `windows`, for a `rawExecHandle` whose
process had already exited before `Kill` was called (the done signal is
closed), `Kill()` invokes `proc.Kill()` and returns its error instead of `nil`. -/
theorem kill_graceful_fails_on_windows :
    (rawExecHandle.mk ⟨7⟩ (Chan.make 1) ⟨0, [], true⟩).doneCh.closed = true ∧
    rawExecHandle.Kill ⟨⟨7⟩, Chan.make 1, ⟨0, [], true⟩⟩
      ⟨"windows", none, true, some (.foreign "os: process already finished")⟩ =
      { ret := some (.foreign "os: process already finished"), trace := [.procKill] } := by
  decide

theorem rawKill_after_watcher (r : WaitResult) (sched later : List Actor) (proc : Process)
    (wch : Chan GoError) (env : KillEnv) (p : ProcState)
    (hgrace : env.doneWithinGrace = (rawExecHandle.run r (sched ++ later)).doneCh.closed)
    (hadm : ∀ s, WEvent.waitReturned ∈ (rawExecHandle.run r (sched ++ later)).trace →
      r = .exited s → p = .exited s) :
    (∃ e ∈ (rawExecHandle.Kill ⟨proc, wch, (rawExecHandle.run r sched).doneCh⟩ env).trace,
        e.isForce = true) ∨
      p.hasExited = true ∨
      (WEvent.waitReturned ∈ (rawExecHandle.run r (sched ++ later)).trace ∧
        ∃ err, r = .failed err) := by
  by_cases hw : env.goos = "windows"
  · left; simp [rawExecHandle.Kill, hw, KEvent.isForce]
  · cases hd : doneFirst (rawExecHandle.run r sched).doneCh env
    · left; simp [rawExecHandle.Kill, hw, hd, KEvent.isForce]
    · right
      simp only [doneFirst, Bool.or_eq_true, hgrace] at hd
      have hwait := (Watch.done_closed_later _ sched later hd).2
      cases r with
      | failed err => exact Or.inr ⟨hwait, err, rfl⟩
      | exited s =>
        left
        rw [hadm s hwait rfl]
        rfl

theorem execKill_after_watcher (err : Option GoError) (sched later : List Actor)
    (cmd : Executor) (wch : Chan GoError) (env : KillEnv) (p : ProcState)
    (hgrace : env.doneWithinGrace = (execHandle.run err (sched ++ later)).doneCh.closed)
    (hadm : WEvent.waitReturned ∈ (execHandle.run err (sched ++ later)).trace →
      err = none → p.hasExited = true) :
    (∃ e ∈ (execHandle.Kill ⟨cmd, wch, (execHandle.run err sched).doneCh⟩ env).trace,
        e.isForce = true) ∨
      p.hasExited = true ∨
      (WEvent.waitReturned ∈ (execHandle.run err (sched ++ later)).trace ∧
        ∃ e, err = some e) := by
  cases hd : doneFirst (execHandle.run err sched).doneCh env
  · left; simp [execHandle.Kill, hd, KEvent.isForce]
  · right
    simp only [doneFirst, Bool.or_eq_true, hgrace] at hd
    have hwait := (Watch.done_closed_later _ sched later hd).2
    cases err with
    | some e => exact Or.inr ⟨hwait, e, rfl⟩
    | none => exact Or.inl (hadm hwait rfl)

/-- C5 as amended. Escalating kill: for every handle of either variant whose
done signal does not fire before the 5-second timer (it is not closed when
`Kill` is called and the watcher does not close it within the grace period),
`Kill()` invokes the forced stop exactly once, after the timer of
`5 * time.Second`, and returns exactly its outcome. In every case `Kill()`
returns only after it has seen the done signal or made a forced-stop attempt,
and the watcher fires the done signal only after its wait has returned, with
the exit of the process or with a wait error. So for a handle watched by `run`,
with `p` the state of the process when `Kill()` returns (a process whose wait
returned its exit has exited): a forced-stop attempt has been made, or the
process has exited, or the watcher's wait has returned with an error. -/
theorem kill_escalates (rh : rawExecHandle) (eh : execHandle) (env : KillEnv)
    (hraw : rh.doneCh.closed = false ∧ env.doneWithinGrace = false)
    (hexec : eh.doneCh.closed = false ∧ env.doneWithinGrace = false) :
    ((eh.Kill env).ret = env.force ∧
      ((eh.Kill env).trace.filter KEvent.isForce).length = 1 ∧
      (eh.Kill env).trace = [.shutdown, .timerFired (5 * 1000000000), .forceStop]) ∧
    ((rh.Kill env).ret = env.force ∧
      ((rh.Kill env).trace.filter KEvent.isForce).length = 1 ∧
      (env.goos ≠ "windows" →
        (rh.Kill env).trace = [.signalInterrupt, .timerFired (5 * 1000000000), .procKill])) ∧
    (∀ (rh' : rawExecHandle) (eh' : execHandle) (env' : KillEnv),
      ((rh'.Kill env').trace.getLast? = some .recvDone ∨
        (rh'.Kill env').trace.getLast? = some .procKill) ∧
      ((eh'.Kill env').trace.getLast? = some .recvDone ∨
        (eh'.Kill env').trace.getLast? = some .forceStop)) ∧
    (∀ (pub : Option GoError) (sched : List Actor),
      (Watch.run pub sched).doneCh.closed = true →
        WEvent.waitReturned ∈ (Watch.run pub sched).trace) ∧
    (∀ (r : WaitResult) (sched later : List Actor) (proc : Process) (wch : Chan GoError)
        (env' : KillEnv) (p : ProcState),
      env'.doneWithinGrace = (rawExecHandle.run r (sched ++ later)).doneCh.closed →
      (∀ s, WEvent.waitReturned ∈ (rawExecHandle.run r (sched ++ later)).trace →
        r = .exited s → p = .exited s) →
      ((∃ e ∈ (rawExecHandle.Kill ⟨proc, wch, (rawExecHandle.run r sched).doneCh⟩ env').trace,
          e.isForce = true) ∨
        p.hasExited = true ∨
        (WEvent.waitReturned ∈ (rawExecHandle.run r (sched ++ later)).trace ∧
          ∃ err, r = .failed err))) ∧
    (∀ (err : Option GoError) (sched later : List Actor) (cmd : Executor) (wch : Chan GoError)
        (env' : KillEnv) (p : ProcState),
      env'.doneWithinGrace = (execHandle.run err (sched ++ later)).doneCh.closed →
      (WEvent.waitReturned ∈ (execHandle.run err (sched ++ later)).trace →
        err = none → p.hasExited = true) →
      ((∃ e ∈ (execHandle.Kill ⟨cmd, wch, (execHandle.run err sched).doneCh⟩ env').trace,
          e.isForce = true) ∨
        p.hasExited = true ∨
        (WEvent.waitReturned ∈ (execHandle.run err (sched ++ later)).trace ∧
          ∃ e, err = some e))) := by
  have h1 : doneFirst rh.doneCh env = false := by
    simp [doneFirst, hraw.1, hraw.2]
  have h2 : doneFirst eh.doneCh env = false := by
    simp [doneFirst, hexec.1, hexec.2]
  refine ⟨?_, ?_, ?_, fun pub sched hcl => ?_, rawKill_after_watcher, execKill_after_watcher⟩
  rotate_left 3
  · have ht := Watch.trace_facts pub _ (Watch.run_inv pub sched).1
    exact ht.2.2.2.2.2.2.2.2.1.mpr (by have := ht.2.2.2.2.2.2.1.mp hcl; omega)
  · simp [execHandle.Kill, h2, KEvent.isForce, gracePeriod]
  · by_cases hw : env.goos = "windows"
    · simp [rawExecHandle.Kill, hw, KEvent.isForce]
    · simp [rawExecHandle.Kill, hw, h1, KEvent.isForce, gracePeriod]
  · intro rh' eh' env'
    constructor
    · by_cases hw : env'.goos = "windows"
      · simp [rawExecHandle.Kill, hw]
      · cases hd : doneFirst rh'.doneCh env' <;> simp [rawExecHandle.Kill, hw, hd]
    · cases hd : doneFirst eh'.doneCh env' <;> simp [execHandle.Kill, hd]

/-- Witness for C5 as amended: a process that ignores the interrupt, and a
forced stop that fails; and a process whose watcher saw it exit with status 0
before `Kill` was called. -/
theorem kill_escalates_witness :
    (rawExecHandle.Kill ⟨⟨7⟩, Chan.make 1, Chan.make 0⟩
      ⟨"linux", none, false, some (.foreign "operation not permitted")⟩).ret =
      some (.foreign "operation not permitted") ∧
    (execHandle.Kill ⟨⟨"s", "c", [], []⟩, Chan.make 1, Chan.make 0⟩
      ⟨"linux", none, false, some (.foreign "operation not permitted")⟩).trace =
      [.shutdown, .timerFired (5 * 1000000000), .forceStop] ∧
    ((∃ e ∈ (rawExecHandle.Kill
          ⟨⟨7⟩, Chan.make 1, (rawExecHandle.run (.exited 0) [.watcher, .watcher]).doneCh⟩
          ⟨"linux", none, true, none⟩).trace, e.isForce = true) ∨
      (ProcState.exited 0).hasExited = true ∨
      (WEvent.waitReturned ∈ (rawExecHandle.run (.exited 0) ([.watcher, .watcher] ++ [])).trace ∧
        ∃ err, WaitResult.exited 0 = .failed err)) :=
  have h := kill_escalates ⟨⟨7⟩, Chan.make 1, Chan.make 0⟩
    ⟨⟨"s", "c", [], []⟩, Chan.make 1, Chan.make 0⟩
    ⟨"linux", none, false, some (.foreign "operation not permitted")⟩ ⟨rfl, rfl⟩ ⟨rfl, rfl⟩
  ⟨h.2.1.1, h.1.2.2,
    h.2.2.2.2.1 (.exited 0) [.watcher, .watcher] [] ⟨7⟩ (Chan.make 1) ⟨"linux", none, true, none⟩
      (.exited 0) (by decide) (fun s _ hs => by cases hs; rfl)⟩

/-- Counterexample to C5 as stated: the watcher's wait fails (as it does for a
process that is not a child of the client), so the watcher closes the done
signal while the process is still running; `Kill()` then sends the graceful
request, takes the done case and returns `nil`, with no forced-stop attempt and
a process that has not exited. The same holds for an `execHandle` whose
executor's `Wait` returns an error. -/
theorem kill_returns_after_failed_wait :
    (rawExecHandle.run (.failed (.foreign "wait: no child processes"))
      [.watcher, .watcher]).doneCh.closed = true ∧
    (∀ s : Int, WaitResult.failed (.foreign "wait: no child processes") = .exited s →
      ProcState.running = .exited s) ∧
    rawExecHandle.Kill
      ⟨⟨7⟩, Chan.make 1,
        (rawExecHandle.run (.failed (.foreign "wait: no child processes"))
          [.watcher, .watcher]).doneCh⟩
      ⟨"linux", none, false, none⟩ = { ret := none, trace := [.signalInterrupt, .recvDone] } ∧
    execHandle.Kill
      ⟨⟨"s", "c", [], []⟩, Chan.make 1,
        (execHandle.run (some (.foreign "wait failed")) [.watcher, .watcher]).doneCh⟩
      ⟨"linux", none, false, none⟩ = { ret := none, trace := [.shutdown, .recvDone] } ∧
    ([KEvent.signalInterrupt, KEvent.recvDone].filter KEvent.isForce = []) ∧
    ([KEvent.shutdown, KEvent.recvDone].filter KEvent.isForce = []) ∧
    ProcState.running.hasExited = false := by
  refine ⟨by decide, ?_, by decide, by decide, by decide, by decide, by decide⟩
  intro s h
  cases h

/-- C9 as amended. What `Kill` returns: whenever `Kill()` invokes the forced
stop, it returns exactly that operation's outcome, so a failure of the forced
stop is returned; the outcome of the graceful request (`proc.Signal` or
`cmd.Shutdown`) is dropped and never changes what `Kill()` returns or does; and
what `Kill()` returns and does is the same whatever is on the completion
channel. -/
theorem kill_return_value (rh : rawExecHandle) (eh : execHandle) (env : KillEnv) :
    ((∃ e ∈ (rh.Kill env).trace, e.isForce = true) → (rh.Kill env).ret = env.force) ∧
    ((∃ e ∈ (eh.Kill env).trace, e.isForce = true) → (eh.Kill env).ret = env.force) ∧
    ((∀ e ∈ (rh.Kill env).trace, e.isForce = false) → (rh.Kill env).ret = none) ∧
    ((∀ e ∈ (eh.Kill env).trace, e.isForce = false) → (eh.Kill env).ret = none) ∧
    (∀ g : Option GoError,
      rh.Kill { env with graceful := g } = rh.Kill env ∧
      eh.Kill { env with graceful := g } = eh.Kill env) ∧
    (∀ c : Chan GoError,
      rawExecHandle.Kill { rh with waitCh := c } env = rh.Kill env ∧
      execHandle.Kill { eh with waitCh := c } env = eh.Kill env) := by
  refine ⟨?_, ?_, ?_, ?_, fun g => ⟨rfl, rfl⟩, fun c => ⟨rfl, rfl⟩⟩
  · by_cases hw : env.goos = "windows"
    · simp [rawExecHandle.Kill, hw]
    · cases hd : doneFirst rh.doneCh env <;> simp [rawExecHandle.Kill, hw, hd, KEvent.isForce]
  · cases hd : doneFirst eh.doneCh env <;> simp [execHandle.Kill, hd, KEvent.isForce]
  · by_cases hw : env.goos = "windows"
    · simp [rawExecHandle.Kill, hw, KEvent.isForce]
    · cases hd : doneFirst rh.doneCh env <;> simp [rawExecHandle.Kill, hw, hd, KEvent.isForce]
  · cases hd : doneFirst eh.doneCh env <;> simp [execHandle.Kill, hd, KEvent.isForce]

/-- Witness for C9 as amended: the forced stop fails after the grace period and
its error is what `Kill()` returns. -/
theorem kill_return_value_witness :
    (rawExecHandle.Kill ⟨⟨7⟩, Chan.make 1, Chan.make 0⟩
      ⟨"linux", some (.foreign "signal failed"), false, some (.foreign "kill failed")⟩).ret =
      some (.foreign "kill failed") :=
  (kill_return_value ⟨⟨7⟩, Chan.make 1, Chan.make 0⟩
    ⟨⟨"s", "c", [], []⟩, Chan.make 1, Chan.make 0⟩
    ⟨"linux", some (.foreign "signal failed"), false, some (.foreign "kill failed")⟩).1
    ⟨.procKill, by decide, rfl⟩

/-- Counterexample to C9 as stated: the graceful request fails
(`proc.Signal(os.Interrupt)` and `cmd.Shutdown()` return an error) and the done
signal fires within the grace period; `Kill()` returns `nil`, not that error,
for both variants. -/
theorem kill_drops_graceful_failure :
    (rawExecHandle.Kill ⟨⟨7⟩, Chan.make 1, ⟨0, [], true⟩⟩
      ⟨"linux", some (.foreign "os: process already finished"), false, none⟩) =
      { ret := none, trace := [.signalInterrupt, .recvDone] } ∧
    (execHandle.Kill ⟨⟨"s", "c", [], []⟩, Chan.make 1, ⟨0, [], true⟩⟩
      ⟨"linux", some (.foreign "shutdown failed"), false, none⟩) =
      { ret := none, trace := [.shutdown, .recvDone] } := by
  decide

/-! ## `Start` and `Fingerprint` -/

theorem get2_absent_or_empty (m : StrMap) (k : String) (h : m k = none ∨ m k = some "") :
    m.get2 k = ("", false) ∨ m.get2 k = ("", true) := by
  rcases h with h | h
  · left; simp [StrMap.get2, h]
  · right; simp [StrMap.get2, h]

theorem execStart_missing (d : DriverContext) (env : StartEnv) (ctx : ExecContext) (task : Task)
    (hcmd : task.Config "command" = none ∨ task.Config "command" = some "")
    (hsrc : task.Config "artifact_source" = none ∨ task.Config "artifact_source" = some "") :
    (ExecDriver.Start d env ctx task).exec =
      (.error (.errorf "missing command or source for exec driver" []), []) := by
  rcases get2_absent_or_empty _ _ hcmd with h1 | h1 <;>
    rcases get2_absent_or_empty _ _ hsrc with h2 | h2 <;>
    simp [ExecDriver.Start, h1, h2] <;> rfl

theorem rawStart_missing (d : DriverContext) (env : StartEnv) (ctx : ExecContext) (task : Task)
    (dir : String) (hdir : ctx.TaskDirs d.taskName = some dir)
    (hcmd : task.Config "command" = none ∨ task.Config "command" = some "")
    (hsrc : task.Config "artifact_source" = none ∨ task.Config "artifact_source" = some "") :
    (RawExecDriver.Start d env ctx task).exec =
      (.error (.errorf "missing command or source for exec driver" []), []) := by
  have h0 : ctx.TaskDirs.get2 d.taskName = (dir, true) := by simp [StrMap.get2, hdir]
  rcases get2_absent_or_empty _ _ hcmd with h1 | h1 <;>
    rcases get2_absent_or_empty _ _ hsrc with h2 | h2 <;>
    simp [RawExecDriver.Start, h0, h1, h2] <;> rfl

theorem rawStart_no_task_dir (d : DriverContext) (env : StartEnv) (ctx : ExecContext)
    (task : Task) (hdir : ctx.TaskDirs d.taskName = none) :
    (RawExecDriver.Start d env ctx task).exec =
      (.error (.errorf "Could not find task directory for task: %v" [d.taskName]), []) := by
  have h0 : ctx.TaskDirs.get2 d.taskName = ("", false) := by simp [StrMap.get2, hdir]
  simp [RawExecDriver.Start, h0]
  rfl

/-- C6 as amended. Missing command and source is rejected: for every task
specification whose `command` is absent or empty and whose `artifact_source` is
absent or empty, `ExecDriver.Start` in every execution context, and
`RawExecDriver.Start` in every execution context that has a task directory for
the driver's task name, return the error `missing command or source for exec
driver` and no handle, before any fetch is attempted, any file is opened or any
process is started. In an execution context without that task directory
`RawExecDriver.Start` returns the error `Could not find task directory for
task` instead, again with no handle and before any other step. -/
theorem start_rejects_missing_command (d : DriverContext) (env : StartEnv) (ctx : ExecContext)
    (task : Task)
    (hcmd : task.Config "command" = none ∨ task.Config "command" = some "")
    (hsrc : task.Config "artifact_source" = none ∨ task.Config "artifact_source" = some "") :
    (ExecDriver.Start d env ctx task).exec =
      (.error (.errorf "missing command or source for exec driver" []), []) ∧
    (ctx.TaskDirs d.taskName ≠ none →
      (RawExecDriver.Start d env ctx task).exec =
        (.error (.errorf "missing command or source for exec driver" []), [])) ∧
    (ctx.TaskDirs d.taskName = none →
      (RawExecDriver.Start d env ctx task).exec =
        (.error (.errorf "Could not find task directory for task: %v" [d.taskName]), [])) := by
  refine ⟨execStart_missing d env ctx task hcmd hsrc, fun hdir => ?_,
    rawStart_no_task_dir d env ctx task⟩
  rcases h : ctx.TaskDirs d.taskName with _ | dir
  · exact absurd h hdir
  · exact rawStart_missing d env ctx task dir h hcmd hsrc

/-- Witness for C6 as amended: a task with an empty `command` and no
`artifact_source`, in a context that has the task directory. -/
theorem start_rejects_missing_command_witness :
    (ExecDriver.Start ⟨"web"⟩ plainEnv ⟨StrMap.empty.set "web" "/alloc/web"⟩
      ⟨StrMap.empty.set "command" ""⟩).exec =
      (.error (.errorf "missing command or source for exec driver" []), []) ∧
    (RawExecDriver.Start ⟨"web"⟩ plainEnv ⟨StrMap.empty.set "web" "/alloc/web"⟩
      ⟨StrMap.empty.set "command" ""⟩).exec =
      (.error (.errorf "missing command or source for exec driver" []), []) :=
  have h := start_rejects_missing_command ⟨"web"⟩ plainEnv ⟨StrMap.empty.set "web" "/alloc/web"⟩
    ⟨StrMap.empty.set "command" ""⟩ (Or.inr (by decide)) (Or.inl (by decide))
  ⟨h.1, h.2.1 (by decide)⟩

/-- Counterexample to C6 as stated: in an execution context with no task
directory for the task, `RawExecDriver.Start` on a task with neither `command`
nor `artifact_source` returns the task-directory error, not the error
`missing command or source`. -/
theorem rawStart_reports_task_dir_first :
    (RawExecDriver.Start ⟨"web"⟩ plainEnv ⟨StrMap.empty⟩ ⟨StrMap.empty⟩).exec =
      (.error (.errorf "Could not find task directory for task: %v" ["web"]), []) ∧
    (RawExecDriver.Start ⟨"web"⟩ plainEnv ⟨StrMap.empty⟩ ⟨StrMap.empty⟩).exec ≠
      (.error (.errorf "missing command or source for exec driver" []), []) := by
  decide

theorem parseBool_false_iff (v : String) :
    strconv.ParseBool v = .ok false ↔ v ∈ ["0", "f", "F", "FALSE", "false", "False"] := by
  simp only [strconv.ParseBool, List.mem_cons, List.mem_singleton, List.not_mem_nil, or_false]
  by_cases h1 : v = "1" ∨ v = "t" ∨ v = "T" ∨ v = "TRUE" ∨ v = "true" ∨ v = "True"
  · rw [if_pos h1]
    have h2 : ¬ (v = "0" ∨ v = "f" ∨ v = "F" ∨ v = "FALSE" ∨ v = "false" ∨ v = "False") := by
      rcases h1 with h | h | h | h | h | h <;> subst h <;> decide
    simp [h2]
  · rw [if_neg h1]
    by_cases h2 : v = "0" ∨ v = "f" ∨ v = "F" ∨ v = "FALSE" ∨ v = "false" ∨ v = "False"
    · rw [if_pos h2]; simp [h2]
    · rw [if_neg h2]; simp [h2]

/-- C7. Opt-in fingerprint: for every client configuration in which the option
`driver.raw_exec.enable` is absent or holds a value that parses as boolean
false (`0`, `f`, `F`, `FALSE`, `false`, `False`), and for every node,
`RawExecDriver.Fingerprint` returns `(false, nil)` and leaves the node's
attribute map unchanged; it returns an error exactly when the option is present
with a value `strconv.ParseBool` rejects (then it returns `false` and the node
is unchanged); and when the value parses as true it returns `(true, nil)`, sets
the node attribute `driver.raw_exec` to `1` and leaves the others alone. -/
theorem rawExec_fingerprint_opt_in (cfg : Config) (node : Node) :
    ((cfg.Options rawExecConfigOption = none ∨
        ∃ v, cfg.Options rawExecConfigOption = some v ∧ strconv.ParseBool v = .ok false) →
      (RawExecDriver.Fingerprint cfg node).enabled = false ∧
      (RawExecDriver.Fingerprint cfg node).err = none ∧
      (RawExecDriver.Fingerprint cfg node).node.Attributes = node.Attributes) ∧
    ((RawExecDriver.Fingerprint cfg node).err ≠ none ↔
      ∃ v e, cfg.Options rawExecConfigOption = some v ∧ strconv.ParseBool v = .error e) ∧
    ((RawExecDriver.Fingerprint cfg node).err ≠ none →
      (RawExecDriver.Fingerprint cfg node).enabled = false ∧
      (RawExecDriver.Fingerprint cfg node).node.Attributes = node.Attributes) ∧
    ((∃ v, cfg.Options rawExecConfigOption = some v ∧ strconv.ParseBool v = .ok true) →
      (RawExecDriver.Fingerprint cfg node).enabled = true ∧
      (RawExecDriver.Fingerprint cfg node).err = none ∧
      (RawExecDriver.Fingerprint cfg node).node.Attributes "driver.raw_exec" = some "1" ∧
      ∀ k, k ≠ "driver.raw_exec" →
        (RawExecDriver.Fingerprint cfg node).node.Attributes k = node.Attributes k) ∧
    (∀ v, strconv.ParseBool v = .ok false ↔ v ∈ ["0", "f", "F", "FALSE", "false", "False"]) := by
  have hdef : strconv.ParseBool "false" = .ok false := by decide
  refine ⟨?_, ?_, ?_, ?_, parseBool_false_iff⟩
  · rintro (h | ⟨v, h, hv⟩)
    · simp [RawExecDriver.Fingerprint, Config.ReadDefault, h, hdef]
    · simp [RawExecDriver.Fingerprint, Config.ReadDefault, h, hv]
  · rcases h : cfg.Options rawExecConfigOption with _ | v
    · simp [RawExecDriver.Fingerprint, Config.ReadDefault, h, hdef]
    · rcases hv : strconv.ParseBool v with e | b
      · simp [RawExecDriver.Fingerprint, Config.ReadDefault, h, hv]
      · cases b <;> simp [RawExecDriver.Fingerprint, Config.ReadDefault, h, hv]
  · rcases h : cfg.Options rawExecConfigOption with _ | v
    · simp [RawExecDriver.Fingerprint, Config.ReadDefault, h, hdef]
    · rcases hv : strconv.ParseBool v with e | b
      · simp [RawExecDriver.Fingerprint, Config.ReadDefault, h, hv]
      · cases b <;> simp [RawExecDriver.Fingerprint, Config.ReadDefault, h, hv]
  · rintro ⟨v, h, hv⟩
    simp only [RawExecDriver.Fingerprint, Config.ReadDefault, h, hv, if_true, StrMap.set]
    refine ⟨trivial, trivial, by simp, fun k hk => by simp [hk]⟩

/-- Witness for C7: the option absent, the option `false`, and the option
`true`, on a node with no attributes. -/
theorem rawExec_fingerprint_opt_in_witness :
    (RawExecDriver.Fingerprint ⟨StrMap.empty⟩ ⟨StrMap.empty⟩).enabled = false ∧
    (RawExecDriver.Fingerprint ⟨StrMap.empty.set "driver.raw_exec.enable" "false"⟩
      ⟨StrMap.empty⟩).node.Attributes = StrMap.empty ∧
    (RawExecDriver.Fingerprint ⟨StrMap.empty.set "driver.raw_exec.enable" "true"⟩
      ⟨StrMap.empty⟩).node.Attributes "driver.raw_exec" = some "1" :=
  ⟨((rawExec_fingerprint_opt_in ⟨StrMap.empty⟩ ⟨StrMap.empty⟩).1 (Or.inl rfl)).1,
   ((rawExec_fingerprint_opt_in ⟨StrMap.empty.set "driver.raw_exec.enable" "false"⟩
      ⟨StrMap.empty⟩).1 (Or.inr ⟨"false", by decide, by decide⟩)).2.2,
   ((rawExec_fingerprint_opt_in ⟨StrMap.empty.set "driver.raw_exec.enable" "true"⟩
      ⟨StrMap.empty⟩).2.2.2.1 ⟨"true", by decide, by decide⟩).2.2.1⟩

end Nomad
